import Mathlib

/-
Verification of the transpile() argument-resolution and dispatch layer of
qiskit-terra (src/qiskit/compiler/transpiler.py), as a shallow embedding.

Conventions of the embedding:
  * Python exceptions become the `PyError` sum type; fallible functions
    return `Except PyError _`.
  * Python warnings are collected in result values as `List PyWarning`.
  * Python dicts whose keys are strings become `PyDict` association lists
    with Python dict semantics (update-in-place-or-append, single key).
  * Collaborator classes that transpiler.py only reads (CouplingMap, Layout,
    Target, Backend, InstructionDurations, TimingConstraints, pulse
    Schedule, PassManager) are not in src/; their read interfaces are
    modelled from the spec, each marked `Modelled from the spec:` in its
    doc comment.
-/

namespace Qiskit

/-- Python exceptions raised (directly or by collaborators) on the paths of
transpiler.py: `TranspilerError` for configuration errors, plus the builtin
exception kinds those paths can produce. -/
inductive PyError where
  | transpilerError (msg : String)
  | typeError (msg : String)
  | attributeError (msg : String)
  | valueError (msg : String)
  | keyError (msg : String)
  | indexError (msg : String)
  deriving Repr, DecidableEq

/-- Predicate picking out configuration errors (`TranspilerError`). -/
def PyError.isTranspilerError : PyError → Bool
  | .transpilerError _ => true
  | _ => false

/-- Python warnings emitted by transpile(): `UserWarning` and
`DeprecationWarning`. -/
inductive PyWarning where
  | userWarning (msg : String)
  | deprecationWarning (msg : String)
  deriving Repr, DecidableEq

/-- A quantum bit, per src/qiskit/circuit/quantumregister.py: a bit with an
owning register (named) and an index within it. -/
structure Qubit where
  register : String
  index : Nat
  deriving Repr, DecidableEq

/-- Calibration entry of a circuit: gate name mapped to a list of
((qubits, parameters), schedule) pairs, of which transpiler.py reads only
the schedule duration (`schedule.duration`, line 815). -/
structure CalEntry where
  qubits : List Nat
  parameters : List Int
  scheduleDuration : Nat
  deriving Repr, DecidableEq

/-- The circuit read interface used by transpiler.py: a name, the owned
qubits (`circuit.qubits`, `circuit.num_qubits`), and the calibrations
mapping (`circuit.calibrations`). The operation list itself is never read
by this layer, so it is carried opaquely as `body`. -/
structure QuantumCircuit where
  name : String
  qubits : List Qubit
  calibrations : List (String × List CalEntry)
  body : Nat
  deriving Repr, DecidableEq

/-- Mirrors Python `circuit.num_qubits` / `len(circuit.qubits)`. -/
def QuantumCircuit.num_qubits (c : QuantumCircuit) : Nat := c.qubits.length

/-- Modelled from the spec: a pulse Schedule (the pulse-schedule macro layer
is an external collaborator, excluded from the core). transpile() only
detects schedules with isinstance and returns them unchanged, so the model
carries an opaque identifier and a name. -/
structure Schedule where
  name : String
  payload : Nat
  deriving Repr, DecidableEq

/-- An element of the `circuits` argument: a circuit or a pulse schedule. -/
inductive Program where
  | circuit (c : QuantumCircuit)
  | schedule (s : Schedule)
  deriving Repr, DecidableEq

/-- Mirrors Python `isinstance(c, Schedule)`. -/
def Program.isSchedule : Program → Bool
  | .circuit _ => false
  | .schedule _ => true

/-- Python attribute `.name`, present on both circuits and schedules. -/
def Program.name : Program → String
  | .circuit c => c.name
  | .schedule s => s.name

/-- Python attribute `.qubits`: present on circuits, an `AttributeError`
on schedules. -/
def Program.qubits : Program → Except PyError (List Qubit)
  | .circuit c => .ok c.qubits
  | .schedule _ => .error (.attributeError "Schedule object has no attribute qubits")

/-- Python attribute `.num_qubits`: present on circuits, an `AttributeError`
on schedules. -/
def Program.num_qubits : Program → Except PyError Nat
  | .circuit c => .ok c.num_qubits
  | .schedule _ => .error (.attributeError "Schedule object has no attribute num_qubits")

/-- Python attribute `.calibrations`: present on circuits, an
`AttributeError` on schedules. -/
def Program.calibrations : Program → Except PyError (List (String × List CalEntry))
  | .circuit c => .ok c.calibrations
  | .schedule _ => .error (.attributeError "Schedule object has no attribute calibrations")

/-- Modelled from the spec: the Coupling Map collaborator (its class is not
in src/) is a directed graph over physical qubit indices, contiguous
0..N-1; transpiler.py reads only its construction from an edge list and
its `size()` (number of physical qubits). -/
structure CouplingMap where
  edges : List (Nat × Nat)
  deriving Repr, DecidableEq

/-- Modelled from the spec: `CouplingMap.size()` is the physical qubit
count, i.e. N for nodes 0..N-1; with the nodes being exactly the edge
endpoints, that is one more than the largest endpoint (0 for no edges). -/
def CouplingMap.size (cm : CouplingMap) : Nat :=
  match cm.edges with
  | [] => 0
  | es => (es.foldl (fun m e => max m (max e.1 e.2)) 0) + 1

/-- Mirrors `CouplingMap(couplinglist)` from a raw adjacency list: each
entry must be a pair `[source, target]`; anything else raises (a
`ValueError` from tuple unpacking). -/
def CouplingMap.ofRaw (l : List (List Nat)) : Except PyError CouplingMap := do
  let edges ← l.mapM (fun e =>
    match e with
    | [a, b] => Except.ok (a, b)
    | _ => Except.error (.valueError "coupling list entries must be pairs"))
  .ok ⟨edges⟩

/-- Modelled from the spec: the InstructionScheduleMap collaborator; the
transpiler reads only `has_custom_gate()` and carries the object. -/
structure InstScheduleMap where
  has_custom_gate : Bool
  payload : Nat
  deriving Repr, DecidableEq

/-- One entry of an instruction-duration table: instruction name, qubit
tuple (None allowed), duration value and unit. -/
structure DurationEntry where
  name : String
  qubits : Option (List Nat)
  duration : Rat
  unit : String
  deriving Repr, DecidableEq

/-- Modelled from the spec: the Instruction Duration Table collaborator
(per-instruction timing lookup with unit normalization); transpiler.py
constructs, merges (`update`) and threads these tables. -/
structure InstructionDurations where
  entries : List DurationEntry
  dt : Option Rat
  deriving Repr, DecidableEq

/-- Mirrors `InstructionDurations()`: an empty table with no dt. -/
def InstructionDurations.empty : InstructionDurations := ⟨[], none⟩

/-- A user-supplied duration tuple `(name, qubits, duration[, unit])`;
a missing unit defaults to the abstract time step unit `dt`. -/
structure DurationTuple where
  name : String
  qubits : Option (List Nat)
  duration : Rat
  unit : Option String
  deriving Repr, DecidableEq

/-- Converts a user duration tuple to a table entry (missing unit means
the abstract unit, per the transpile() docstring). -/
def DurationTuple.toEntry (t : DurationTuple) : DurationEntry :=
  ⟨t.name, t.qubits, t.duration, t.unit.getD "dt"⟩

/-- Modelled from the spec: merging one duration table into another
(`InstructionDurations.update`): new entries are appended (overriding on
lookup), and a supplied dt replaces the table's dt. -/
def InstructionDurations.updateTable (t : InstructionDurations)
    (new : List DurationEntry) (dt : Option Rat) : InstructionDurations :=
  ⟨t.entries ++ new, match dt with | some q => some q | none => t.dt⟩

/-- The timing-constraint settings, per the transpile() docstring:
granularity, min_length, pulse_alignment, acquire_alignment. -/
structure TimingConstraints where
  granularity : Nat
  min_length : Nat
  pulse_alignment : Nat
  acquire_alignment : Nat
  deriving Repr, DecidableEq

/-- A raw timing-constraints dict as supplied by a user or a backend
configuration (missing keys allowed). -/
structure TimingDict where
  granularity : Option Nat
  min_length : Option Nat
  pulse_alignment : Option Nat
  acquire_alignment : Option Nat
  deriving Repr, DecidableEq

/-- The empty timing dict (`{}`). -/
def TimingDict.empty : TimingDict := ⟨none, none, none, none⟩

/-- Modelled from the spec: `TimingConstraints(**d)`; absent keys mean no
restriction, i.e. resolution 1. -/
def TimingConstraints.ofDict (d : TimingDict) : TimingConstraints :=
  ⟨d.granularity.getD 1, d.min_length.getD 1, d.pulse_alignment.getD 1,
   d.acquire_alignment.getD 1⟩

/-- Modelled from the spec: the Target collaborator is an immutable
capability descriptor of which the transpiler reads basis gate names,
coupling graph, durations, calibration map, dt and timing constraints;
fields hold the results of the corresponding read methods.
`custom_inst_map` records an `update_from_instruction_schedule_map`
applied to a deep copy (transpiler.py lines 568-571). -/
structure Target where
  build_coupling_map : Option CouplingMap
  operation_names : List String
  durations : InstructionDurations
  instruction_schedule_map : InstScheduleMap
  dt : Option Rat
  timing_constraints : TimingConstraints
  custom_inst_map : Option InstScheduleMap
  deriving Repr, DecidableEq

/-- Mirrors `target.update_from_instruction_schedule_map(inst_map)` applied
to a deep copy of the target (the original is not mutated). -/
def Target.update_from_inst_map (t : Target) (m : InstScheduleMap) : Target :=
  { t with custom_inst_map := some m }

/-- Modelled from the spec: backend properties (gate errors, readout
errors, ...), read-only; either native to a backend or derived from a
target via `target_to_backend_properties`. -/
inductive BackendProperties where
  | native (payload : Nat)
  | ofTarget (t : Target)
  deriving Repr, DecidableEq

/-- Mirrors `target_to_backend_properties(target)`. -/
def target_to_backend_properties (t : Target) : BackendProperties := .ofTarget t

/-- The read interface of `backend.configuration()` for version <= 1
backends, as probed by transpiler.py: simulator flag, n_qubits, and the
optional basis_gates / coupling_map / timing_constraints attributes
(`none` means the attribute is absent). -/
structure BackendConfiguration where
  simulator : Bool
  n_qubits : Nat
  basis_gates : Option (List String)
  coupling_map : Option (List (List Nat))
  timing_constraints : Option TimingDict
  deriving Repr, DecidableEq

/-- Modelled from the spec: the backend collaborator's read interface, as
duck-typed by transpiler.py. `none` in an `Option` field models an absent
attribute (`getattr`/`hasattr` probing). `configuration` is the result of
`backend.configuration()`; `defaults` is
`backend.defaults().instruction_schedule_map` when the backend has a
`defaults` attribute. The `num_qubits`, `operation_names`, `coupling_map`
and `instruction_durations` fields are the version >= 2 accessors. -/
structure Backend where
  version : Nat
  configuration : Option BackendConfiguration
  properties : Option BackendProperties
  defaults : Option (Option InstScheduleMap)
  target : Option Target
  num_qubits : Nat
  operation_names : List String
  coupling_map : Option CouplingMap
  instruction_durations : InstructionDurations
  durations_from_properties : Option InstructionDurations
  get_scheduling_stage_plugin : Option String
  get_translation_stage_plugin : Option String
  deriving Repr, DecidableEq

/-- Mirrors `getattr(backend, "version", 0)` with `backend` possibly None. -/
def backendVersion : Option Backend → Nat
  | none => 0
  | some b => b.version

/-- Mirrors `InstructionDurations.from_backend(backend)`: raises
`AttributeError` when the backend (possibly None) does not expose gate
lengths via properties; transpiler.py catches exactly that error. -/
def InstructionDurations.from_backend (b : Option Backend) :
    Except PyError InstructionDurations :=
  match b with
  | none => .error (.attributeError "NoneType object has no attribute properties")
  | some bk =>
    match bk.durations_from_properties with
    | none => .error (.attributeError "backend has no attribute properties")
    | some d => .ok d

/-- Modelled from the spec: high-level-synthesis configuration object,
passed through opaquely. -/
structure HLSConfig where
  payload : Nat
  deriving Repr, DecidableEq

/-- Modelled from the spec: Layout is a bidirectional mapping between
virtual qubits and physical qubit indices; transpiler.py constructs one
from a physical-to-virtual mapping (`Layout(mapping)` in
`_layout_from_raw`) or passes a user Layout/dict through. -/
structure Layout where
  p2v : List (Int × Qubit)
  deriving Repr, DecidableEq

/-- The physical index assigned to a virtual qubit by a layout. -/
def Layout.physicalOf (l : Layout) (q : Qubit) : Option Int :=
  (l.p2v.find? (fun e => e.2 = q)).map (·.1)

end Qiskit

namespace Qiskit

/-- A Python value as it appears in the shared/unique transpile-argument
dicts of `_parse_transpile_args` (and so in `PassManagerConfig`); `nonety`
is Python's None, `listV` a Python list. Callbacks are opaque values that
per the spec must not affect the pipeline outcome. -/
inductive Value where
  | nonety
  | str (s : String)
  | natV (n : Nat)
  | intV (n : Int)
  | ratV (q : Rat)
  | qubitV (q : Qubit)
  | couplingMapV (c : CouplingMap)
  | instMapV (m : InstScheduleMap)
  | backendPropsV (p : BackendProperties)
  | layoutV (l : Layout)
  | durationsV (d : InstructionDurations)
  | timingV (t : TimingConstraints)
  | targetV (t : Target)
  | hlsV (h : HLSConfig)
  | callbackV (c : Option Nat)
  | uspcV (d : Nat)
  | listV (vs : List Value)

/-- Mirrors Python `isinstance(value, list)`. -/
def Value.isList : Value → Bool
  | .listV _ => true
  | _ => false

/-- A string-keyed Python dict, as an association list with unique keys
maintained by `set` (Python insertion-order semantics). -/
abbrev PyDict : Type := List (String × Value)

/-- Dict lookup (`d[k]` / `d.get(k)`). -/
def PyDict.get? : PyDict → String → Option Value
  | [], _ => none
  | (k', v) :: rest, k => if k' = k then some v else PyDict.get? rest k

/-- Dict write (`d[k] = v`): replaces an existing entry in place, else
appends. -/
def PyDict.set : PyDict → String → Value → PyDict
  | [], k, v => [(k, v)]
  | (k', v') :: rest, k, v =>
    if k' = k then (k, v) :: rest else (k', v') :: PyDict.set rest k v

/-- Key removal (the removal part of `d.pop(k)`). -/
def PyDict.erase : PyDict → String → PyDict
  | [], _ => []
  | (k', v') :: rest, k =>
    if k' = k then rest else (k', v') :: PyDict.erase rest k

/-- Dict merge (`d.update(u)`): writes every entry of `u` into `d`. -/
def PyDict.update (d u : PyDict) : PyDict :=
  u.foldl (fun a kv => PyDict.set a kv.1 kv.2) d

/-- The key list of a dict, in order. -/
def PyDict.keys (d : PyDict) : List String := d.map (·.1)

/-- Mirrors Python `k in d`. -/
def PyDict.hasKey (d : PyDict) (k : String) : Bool := (d.get? k).isSome

/-- The resolved pass-manager configuration bundle: `PassManagerConfig`
built from keyword arguments, one optional slot per recognized parameter
(absent keyword means the default, None). -/
structure PassManagerConfig where
  initial_layout : Option Value
  basis_gates : Option Value
  inst_map : Option Value
  coupling_map : Option Value
  layout_method : Option Value
  routing_method : Option Value
  translation_method : Option Value
  scheduling_method : Option Value
  instruction_durations : Option Value
  backend_properties : Option Value
  approximation_degree : Option Value
  seed_transpiler : Option Value
  timing_constraints : Option Value
  unitary_synthesis_method : Option Value
  unitary_synthesis_plugin_config : Option Value
  target : Option Value
  hls_config : Option Value
  init_method : Option Value
  optimization_method : Option Value

/-- Mirrors `PassManagerConfig(**d)` for the dicts built by
`_combine_args` (whose keys are always among the recognized parameters). -/
def mkPassManagerConfig (d : PyDict) : PassManagerConfig :=
  { initial_layout := d.get? "initial_layout"
    basis_gates := d.get? "basis_gates"
    inst_map := d.get? "inst_map"
    coupling_map := d.get? "coupling_map"
    layout_method := d.get? "layout_method"
    routing_method := d.get? "routing_method"
    translation_method := d.get? "translation_method"
    scheduling_method := d.get? "scheduling_method"
    instruction_durations := d.get? "instruction_durations"
    backend_properties := d.get? "backend_properties"
    approximation_degree := d.get? "approximation_degree"
    seed_transpiler := d.get? "seed_transpiler"
    timing_constraints := d.get? "timing_constraints"
    unitary_synthesis_method := d.get? "unitary_synthesis_method"
    unitary_synthesis_plugin_config := d.get? "unitary_synthesis_plugin_config"
    target := d.get? "target"
    hls_config := d.get? "hls_config"
    init_method := d.get? "init_method"
    optimization_method := d.get? "optimization_method" }

end Qiskit

namespace Qiskit

/-- An argument that is a string, None, or a legacy per-circuit list of
strings (the method-name arguments). -/
inductive StrArg where
  | noneA
  | one (s : String)
  | many (ss : List String)
  deriving Repr, DecidableEq

/-- The `inst_map` argument: None, a single InstructionScheduleMap, or a
legacy per-circuit list. -/
inductive InstMapArg where
  | noneA
  | one (m : InstScheduleMap)
  | many (ms : List InstScheduleMap)
  deriving Repr, DecidableEq

/-- An element of a `coupling_map` given as a Python list: a flat list of
ints (an adjacency pair), a nested list of int-lists (a legacy per-circuit
adjacency list), or a CouplingMap object. -/
inductive CouplingEntry where
  | ints (l : List Nat)
  | nested (l : List (List Nat))
  | cmapE (c : CouplingMap)
  deriving Repr, DecidableEq

/-- The `coupling_map` argument: None, a CouplingMap, or a Python list
(an adjacency list, or a legacy per-circuit list of coupling maps). -/
inductive CouplingMapArg where
  | noneA
  | cmap (c : CouplingMap)
  | pylist (es : List CouplingEntry)
  deriving Repr, DecidableEq

/-- The `backend_properties` argument. -/
inductive BackendPropsArg where
  | noneA
  | one (p : BackendProperties)
  | many (ps : List BackendProperties)
  deriving Repr, DecidableEq

/-- An element of an `initial_layout` iterable as consumed by
`_layout_from_raw`: None, a Qubit, an int, or (only via legacy lists) a
Layout object. -/
inductive RawEntry where
  | noneE
  | qb (q : Qubit)
  | intE (n : Int)
  | layR (l : Layout)
  deriving Repr, DecidableEq

/-- An `initial_layout` dict: virtual-to-physical or physical-to-virtual. -/
inductive LayoutDict where
  | v2p (l : List (Qubit × Int))
  | p2v (l : List (Int × Qubit))
  deriving Repr, DecidableEq

/-- Modelled from the spec: `Layout(dict)` accepts a dict of
physical-to-virtual or virtual-to-physical assignments. -/
def Layout.ofDict : LayoutDict → Layout
  | .p2v l => ⟨l⟩
  | .v2p l => ⟨l.map (fun e => (e.2, e.1))⟩

/-- An element of an `initial_layout` given as a Python list: the raw
entries plus (legacy broadcast) nested lists, dicts and Layout objects. -/
inductive PylistEntry where
  | noneE
  | qb (q : Qubit)
  | intE (n : Int)
  | lst (es : List RawEntry)
  | dctE (d : LayoutDict)
  | layE (l : Layout)
  deriving Repr, DecidableEq

/-- The `initial_layout` argument: None, a Layout, a dict, or a Python
list. -/
inductive InitialLayoutArg where
  | noneA
  | lay (l : Layout)
  | dct (d : LayoutDict)
  | pylist (es : List PylistEntry)
  deriving Repr, DecidableEq

/-- What `_layout_from_raw` accepts: None, a Layout, a dict, or an
iterable of raw entries. -/
inductive LayoutSpec where
  | noneS
  | layS (l : Layout)
  | dctS (d : LayoutDict)
  | iterS (es : List RawEntry)
  deriving Repr, DecidableEq

/-- An element of an `instruction_durations` Python list: a duration tuple,
or (legacy broadcast) a nested list of tuples or a duration table. -/
inductive DurElem where
  | tup (t : DurationTuple)
  | lst (ts : List DurationTuple)
  | tab (d : InstructionDurations)
  deriving Repr, DecidableEq

/-- The `instruction_durations` argument. -/
inductive InstDurArg where
  | noneA
  | table (d : InstructionDurations)
  | pylist (es : List DurElem)
  deriving Repr, DecidableEq

/-- The `approximation_degree` argument: None, a float, or a legacy
per-circuit list of floats/None. -/
inductive ApproxArg where
  | noneA
  | one (q : Rat)
  | many (es : List (Option Rat))
  deriving Repr, DecidableEq

/-- The `seed_transpiler` argument. -/
inductive SeedArg where
  | noneA
  | one (n : Nat)
  | many (ns : List Nat)
  deriving Repr, DecidableEq

/-- The `callback` argument (callbacks carried opaquely). -/
inductive CallbackArg where
  | noneA
  | one (c : Nat)
  | many (cs : List (Option Nat))
  deriving Repr, DecidableEq

/-- An element of an `output_name` list: a string or a non-string value. -/
inductive ONameEntry where
  | strE (s : String)
  | nonstrE (payload : Nat)
  deriving Repr, DecidableEq

/-- The `output_name` argument: None, a bare string, a list, or a value of
any other type. -/
inductive OutputNameArg where
  | noneA
  | strA (s : String)
  | pylist (es : List ONameEntry)
  | other (payload : Nat)
  deriving Repr, DecidableEq

/-- The `timing_constraints` argument: None, a TimingConstraints object, a
dict, or a (legacy, broken) per-circuit list of dicts. -/
inductive TimingConstraintsArg where
  | noneA
  | obj (t : TimingConstraints)
  | dict (d : TimingDict)
  | pylist (ds : List TimingDict)
  deriving Repr, DecidableEq

/-- The `unitary_synthesis_plugin_config` argument (opaque dicts). -/
inductive UspcArg where
  | noneA
  | one (d : Nat)
  | many (ds : List Nat)
  deriving Repr, DecidableEq

/-- The `hls_config` argument. -/
inductive HlsArg where
  | noneA
  | one (h : HLSConfig)
  | many (hs : List HLSConfig)
  deriving Repr, DecidableEq

end Qiskit

namespace Qiskit

/-- Mirrors `_parse_basis_gates` (transpiler.py lines 666-675): take the
user's basis gates, else probe the backend (configuration for version <= 1,
`operation_names` for version >= 2). -/
def _parse_basis_gates (basis_gates : Option (List String)) (backend : Option Backend) :
    Option (List String) :=
  match basis_gates with
  | some g => some g
  | none =>
    match backend with
    | none => none
    | some b =>
      if b.version ≤ 1 then
        match b.configuration with
        | none => none
        | some cfg => cfg.basis_gates
      else some b.operation_names

/-- Mirrors `_parse_inst_map` (lines 678-687): take the user's, else the
backend defaults (version <= 1) or `backend.target.instruction_schedule_map()`
(version >= 2, an `AttributeError` if the target is absent). -/
def _parse_inst_map (inst_map : InstMapArg) (backend : Option Backend) :
    Except PyError InstMapArg :=
  match inst_map with
  | .noneA =>
    match backend with
    | none => .ok .noneA
    | some b =>
      if b.version ≤ 1 then
        match b.defaults with
        | none => .ok .noneA
        | some d =>
          match d with
          | some m => .ok (.one m)
          | none => .ok .noneA
      else
        match b.target with
        | some t => .ok (.one t.instruction_schedule_map)
        | none => .error (.attributeError "NoneType object has no attribute instruction_schedule_map")
  | m => .ok m

/-- Mirrors `isinstance(i, list) and len(i) == 2` for a coupling-list
element (a nested list of length 2 also satisfies the isinstance check). -/
def CouplingEntry.isPair : CouplingEntry → Bool
  | .ints l => l.length = 2
  | .nested l => l.length = 2
  | .cmapE _ => false

/-- Reads a coupling-list element as one directed edge, as the CouplingMap
constructor's `for source, target in couplinglist` does: a flat pair of
ints succeeds; a nested pair unpacks into lists, which then fail hashing
(`TypeError`); a CouplingMap object cannot be unpacked. -/
def CouplingEntry.toEdge : CouplingEntry → Except PyError (Nat × Nat)
  | .ints [a, b] => .ok (a, b)
  | .ints _ => .error (.valueError "coupling list entries must be pairs")
  | .nested l =>
    if l.length = 2 then .error (.typeError "unhashable type list")
    else .error (.valueError "coupling list entries must be pairs")
  | .cmapE _ => .error (.typeError "cannot unpack CouplingMap")

/-- Mirrors `_parse_coupling_map` (lines 690-711): user value, else backend
(configuration coupling map for version <= 1, `backend.coupling_map` for
version >= 2); then a raw adjacency list of pairs becomes one CouplingMap,
and any other list maps its elements to CouplingMaps (legacy broadcast). -/
def _parse_coupling_map (coupling_map : CouplingMapArg) (backend : Option Backend) :
    Except PyError Value := do
  let cm ←
    match coupling_map with
    | .noneA =>
      match backend with
      | none => pure CouplingMapArg.noneA
      | some b =>
        if b.version ≤ 1 then
          match b.configuration with
          | none => pure CouplingMapArg.noneA
          | some cfg =>
            match cfg.coupling_map with
            | some l =>
              if l.isEmpty then pure CouplingMapArg.noneA
              else do
                let c ← CouplingMap.ofRaw l
                pure (CouplingMapArg.cmap c)
            | none => pure CouplingMapArg.noneA
        else
          match b.coupling_map with
          | some c => pure (CouplingMapArg.cmap c)
          | none => pure CouplingMapArg.noneA
    | x => pure x
  match cm with
  | .noneA => .ok .nonety
  | .cmap c => .ok (.couplingMapV c)
  | .pylist es =>
    if es.all CouplingEntry.isPair then do
      let edges ← es.mapM CouplingEntry.toEdge
      .ok (.couplingMapV ⟨edges⟩)
    else do
      let cs ← es.mapM (fun e =>
        match e with
        | .ints _ => Except.error (PyError.typeError "cannot unpack int")
        | .nested l => CouplingMap.ofRaw l
        | .cmapE c => Except.ok c)
      .ok (.listV (cs.map Value.couplingMapV))

/-- Mirrors `_parse_backend_properties` (lines 714-723): user value, else
`backend.properties()` (version <= 1) or properties derived from
`backend.target` (version >= 2). -/
def _parse_backend_properties (backend_properties : BackendPropsArg) (backend : Option Backend) :
    Except PyError BackendPropsArg :=
  match backend_properties with
  | .noneA =>
    match backend with
    | none => .ok .noneA
    | some b =>
      if b.version ≤ 1 then
        match b.properties with
        | none => .ok .noneA
        | some p => .ok (.one p)
      else
        match b.target with
        | some t => .ok (.one (target_to_backend_properties t))
        | none => .error (.attributeError "NoneType object is not a Target")
  | p => .ok p

/-- Mirrors `_parse_backend_num_qubits` (lines 726-742) for the
non-list-of-backends shape (a list of backends is a legacy broadcast input
not modelled here): None gives a per-circuit list of None, otherwise the
backend's qubit count is replicated. -/
def _parse_backend_num_qubits (backend : Option Backend) (num_circuits : Nat) :
    Except PyError (List (Option Nat)) :=
  match backend with
  | none => .ok (List.replicate num_circuits none)
  | some b =>
    if b.version ≤ 1 then
      match b.configuration with
      | some cfg => .ok (List.replicate num_circuits (some cfg.n_qubits))
      | none => .error (.attributeError "backend object has no attribute configuration")
    else .ok (List.replicate num_circuits (some b.num_qubits))

/-- Mirrors `phys is None or isinstance(phys, Qubit)`. -/
def RawEntry.isNoneOrQubit : RawEntry → Bool
  | .noneE => true
  | .qb _ => true
  | _ => false

/-- Mirrors `int(phys)`: succeeds on ints, raises `TypeError` otherwise. -/
def RawEntry.toInt : RawEntry → Except PyError Int
  | .intE n => .ok n
  | .noneE => .error (.typeError "int() argument must not be None")
  | .qb _ => .error (.typeError "int() argument cannot be a Qubit")
  | .layR _ => .error (.typeError "int() argument cannot be a Layout")

/-- Mirrors `_layout_from_raw` (lines 748-771): pass through None/Layout,
build a Layout from a dict, and from an iterable build either a
physical-to-virtual mapping from Qubit/None entries (checking the mapped
count against the circuit) or, for index entries, check length and
duplicates and zip the indices with the circuit's qubits. -/
def _layout_from_raw (spec : LayoutSpec) (circuit : Program) :
    Except PyError (Option Layout) :=
  match spec with
  | .noneS => .ok none
  | .layS l => .ok (some l)
  | .dctS d => .ok (some (Layout.ofDict d))
  | .iterS specifier =>
    if specifier.all RawEntry.isNoneOrQubit then do
      let mapping := (specifier.enum.filterMap (fun ie =>
        match ie.2 with
        | RawEntry.qb q => some ((ie.1 : Int), q)
        | _ => none))
      let n ← circuit.num_qubits
      if mapping.length ≠ n then
        .error (.transpilerError "initial_layout and circuit had different numbers of qubits")
      else
        .ok (some ⟨mapping⟩)
    else do
      let n ← circuit.num_qubits
      if specifier.length ≠ n then
        .error (.transpilerError "initial_layout and circuit had different numbers of qubits")
      else if specifier.length ≠ specifier.dedup.length then
        .error (.transpilerError "initial_layout contained duplicate entries")
      else do
        let phys ← specifier.mapM RawEntry.toInt
        let qs ← circuit.qubits
        .ok (some ⟨phys.zip qs⟩)

/-- The per-circuit entries produced by `_parse_initial_layout`: converted
layouts, or legacy non-list non-dict elements kept as they are. -/
inductive ParsedLayoutEntry where
  | noneP
  | layP (l : Layout)
  | qbP (q : Qubit)
  | intP (n : Int)
  deriving Repr, DecidableEq

/-- Converts an optional layout produced by `_layout_from_raw` into a
parsed entry. -/
def optLayoutToEntry : Option Layout → ParsedLayoutEntry
  | some l => .layP l
  | none => .noneP

/-- Reads a Python-list element as a raw iterable entry (used when the list
contains no nested lists or dicts). -/
def PylistEntry.toRaw : PylistEntry → RawEntry
  | .noneE => .noneE
  | .qb q => .qb q
  | .intE n => .intE n
  | .layE l => .layR l
  | .lst _ => .noneE
  | .dctE _ => .noneE

/-- Mirrors `isinstance(i, (list, dict))`. -/
def PylistEntry.isListOrDict : PylistEntry → Bool
  | .lst _ => true
  | .dctE _ => true
  | _ => false

/-- Mirrors `_parse_initial_layout` (lines 745-785): a list containing
lists/dicts is the legacy multiple-layouts broadcast, zipped with the
circuits; otherwise one layout specification is adapted to every circuit. -/
def _parse_initial_layout (initial_layout : InitialLayoutArg) (circuits : List Program) :
    Except PyError (List ParsedLayoutEntry) :=
  match initial_layout with
  | .pylist es =>
    if es.any PylistEntry.isListOrDict then
      (es.zip circuits).mapM (fun ec =>
        match ec.1 with
        | PylistEntry.lst rs => (_layout_from_raw (.iterS rs) ec.2).map optLayoutToEntry
        | PylistEntry.dctE d => (_layout_from_raw (.dctS d) ec.2).map optLayoutToEntry
        | PylistEntry.noneE => Except.ok ParsedLayoutEntry.noneP
        | PylistEntry.qb q => Except.ok (ParsedLayoutEntry.qbP q)
        | PylistEntry.intE n => Except.ok (ParsedLayoutEntry.intP n)
        | PylistEntry.layE l => Except.ok (ParsedLayoutEntry.layP l))
    else
      circuits.mapM (fun circ =>
        (_layout_from_raw (.iterS (es.map PylistEntry.toRaw)) circ).map optLayoutToEntry)
  | .noneA => circuits.mapM (fun circ => (_layout_from_raw .noneS circ).map optLayoutToEntry)
  | .lay l => circuits.mapM (fun circ => (_layout_from_raw (.layS l) circ).map optLayoutToEntry)
  | .dct d => circuits.mapM (fun circ => (_layout_from_raw (.dctS d) circ).map optLayoutToEntry)

end Qiskit

namespace Qiskit

/-- Python truthiness of the `instruction_durations` argument (None and an
empty list are falsy; tables and non-empty lists are truthy). -/
def InstDurArg.truthy : InstDurArg → Bool
  | .noneA => false
  | .table _ => true
  | .pylist es => !es.isEmpty

/-- Mirrors `getattr(inst_durations, "dt", None)`. -/
def InstDurArg.getDt : InstDurArg → Option Rat
  | .table d => d.dt
  | _ => none

/-- Python `a or b` on optional floats: a None or zero left operand is
falsy. -/
def ratOr (a b : Option Rat) : Option Rat :=
  match a with
  | some q => if q = 0 then b else some q
  | none => b

/-- Mirrors `InstructionDurations.update(inst_durations, dt)` for a
user-supplied argument: a table merges, a list must consist of duration
tuples (nested lists or tables in it fail with a `TranspilerError` from the
collaborator's entry validation). -/
def InstructionDurations.updateArg (t : InstructionDurations) (arg : InstDurArg)
    (dt : Option Rat) : Except PyError InstructionDurations :=
  match arg with
  | .noneA => .ok t
  | .table d => .ok (t.updateTable d.entries dt)
  | .pylist es => do
    let entries ← es.mapM (fun e =>
      match e with
      | DurElem.tup tu => Except.ok tu.toEntry
      | _ => Except.error (PyError.transpilerError "Not all durations are given as tuples"))
    .ok (t.updateTable entries dt)

/-- The backend-derived base duration table of
`_parse_instruction_durations` (lines 794-803): computed only when the user
gave no durations; a missing duration source on a version <= 1 backend is
the caught `AttributeError`, leaving the empty table. -/
def backendDurationsOf (backend : Option Backend) (inst_durations : InstDurArg) :
    InstructionDurations :=
  if !inst_durations.truthy then
    if backendVersion backend ≤ 1 then
      match InstructionDurations.from_backend backend with
      | .ok d => d
      | .error _ => InstructionDurations.empty
    else
      match backend with
      | some b => b.instruction_durations
      | none => InstructionDurations.empty
  else InstructionDurations.empty

/-- The per-circuit duration table of `_parse_instruction_durations`
(lines 806-823): backend durations, then the circuit's calibration
durations, then the user durations. -/
def circDurations (inst_durations : InstDurArg) (dt : Option Rat)
    (backend_durations : InstructionDurations) (circ : Program) :
    Except PyError (Option InstructionDurations) := do
  let base := InstructionDurations.empty
  let base :=
    if !inst_durations.truthy then
      base.updateTable backend_durations.entries (ratOr dt backend_durations.dt)
    else base
  let cals ← circ.calibrations
  let base :=
    if !cals.isEmpty then
      let cal_entries := cals.flatMap (fun gc =>
        gc.2.map (fun ce => DurationEntry.mk gc.1 (some ce.qubits) (ce.scheduleDuration : Rat) "dt"))
      base.updateTable cal_entries base.dt
    else base
  let base ←
    if inst_durations.truthy then
      base.updateArg inst_durations (ratOr dt inst_durations.getDt)
    else pure base
  pure (some base)

/-- Mirrors `_parse_instruction_durations` (lines 788-824). Every produced
element is an InstructionDurations object; the `List (Option _)` result
type records exactly the Python-level fact that entries could in principle
be None, which the caller tests at line 572. The `parameters` component of
calibration entries is not carried (nothing in this layer reads it). -/
def _parse_instruction_durations (backend : Option Backend) (inst_durations : InstDurArg)
    (dt : Option Rat) (circuits : List Program) :
    Except PyError (List (Option InstructionDurations)) :=
  circuits.mapM (circDurations inst_durations dt (backendDurationsOf backend inst_durations))

/-- Mirrors `_parse_approximation_degree` (lines 827-835): None passes, a
list is checked entrywise skipping falsy entries (None and 0.0), a scalar
outside [0, 1] raises. -/
def _parse_approximation_degree (approximation_degree : ApproxArg) :
    Except PyError ApproxArg :=
  match approximation_degree with
  | .noneA => .ok .noneA
  | .many es =>
    if es.all (fun d =>
        match d with
        | some q => if q = 0 then true else (if 0 ≤ q ∧ q ≤ 1 then true else false)
        | none => true) then
      .ok (.many es)
    else .error (.transpilerError "Approximation degree must be in [0.0, 1.0]")
  | .one q =>
    if q < 0 ∨ 1 < q then
      .error (.transpilerError "Approximation degree must be in [0.0, 1.0]")
    else .ok (.one q)

/-- Mirrors `_parse_target` (lines 838-842). -/
def _parse_target (backend : Option Backend) (target : Option Target) : Option Target :=
  match target with
  | some t => some t
  | none => backend.bind Backend.target

/-- Mirrors `_parse_callback` (lines 845-848). -/
def _parse_callback (callback : CallbackArg) (num_circuits : Nat) : List (Option Nat) :=
  match callback with
  | .many cs => cs
  | .one c => List.replicate num_circuits (some c)
  | .noneA => List.replicate num_circuits none

/-- Mirrors `_parse_output_name` (lines 851-883). -/
def _parse_output_name (output_name : OutputNameArg) (circuits : List Program) :
    Except PyError (List String) :=
  match output_name with
  | .noneA => .ok (circuits.map Program.name)
  | .strA s =>
    if circuits.length = 1 then .ok [s]
    else
      .error (.transpilerError "Expected a list object of length equal to that of the number of circuits being transpiled")
  | .pylist es =>
    if circuits.length = es.length ∧
        es.all (fun e => match e with | ONameEntry.strE _ => true | _ => false) then
      .ok (es.filterMap (fun e => match e with | ONameEntry.strE s => some s | _ => none))
    else
      .error (.transpilerError "The length of output_name list must be equal to the number of transpiled circuits and the output_name list should be strings.")
  | .other _ =>
    .error (.transpilerError "The parameter output_name should be a string or a list of strings")

/-- Mirrors `_parse_timing_constraints` (lines 886-900): a TimingConstraints
object is broadcast; with no backend and no value the defaults apply; for a
version <= 1 backend the dict (user's, else the configuration's) is
unpacked with `TimingConstraints(**tc)` (a list there raises `TypeError`);
a version >= 2 backend always takes `backend.target.timing_constraints()`. -/
def _parse_timing_constraints (backend : Option Backend)
    (timing_constraints : TimingConstraintsArg) (num_circuits : Nat) :
    Except PyError (List TimingConstraints) :=
  match timing_constraints with
  | .obj t => .ok (List.replicate num_circuits t)
  | tc =>
    if backend = none ∧ tc = TimingConstraintsArg.noneA then
      .ok (List.replicate num_circuits (TimingConstraints.ofDict TimingDict.empty))
    else
      if backendVersion backend ≤ 1 then do
        let d ←
          match tc with
          | .noneA =>
            match backend with
            | some b =>
              match b.configuration with
              | some cfg => pure (cfg.timing_constraints.getD TimingDict.empty)
              | none => Except.error (PyError.attributeError "backend object has no attribute configuration")
            | none => Except.error (PyError.attributeError "NoneType object has no attribute configuration")
          | .dict d => pure d
          | .pylist _ => Except.error (PyError.typeError "argument after ** must be a mapping, not list")
          | .obj _ => Except.error (PyError.typeError "unreachable")
        .ok (List.replicate num_circuits (TimingConstraints.ofDict d))
      else
        match backend with
        | some b =>
          match b.target with
          | some t => .ok (List.replicate num_circuits t.timing_constraints)
          | none => .error (.attributeError "NoneType object has no attribute timing_constraints")
        | none => .error (.attributeError "NoneType object has no attribute target")

end Qiskit

namespace Qiskit

/-- Python truthiness of a method argument (`if scheduling_method`):
None and empty strings/lists are falsy. -/
def StrArg.truthy : StrArg → Bool
  | .noneA => false
  | .one s => !(s == "")
  | .many ss => !ss.isEmpty

/-- The parsed `inst_map` slot as a Python value. -/
def instMapValue : InstMapArg → Value
  | .noneA => .nonety
  | .one m => .instMapV m
  | .many ms => .listV (ms.map Value.instMapV)

/-- A method argument as a Python value. -/
def strArgValue : StrArg → Value
  | .noneA => .nonety
  | .one s => .str s
  | .many ss => .listV (ss.map Value.str)

/-- The parsed `backend_properties` slot as a Python value. -/
def backendPropsValue : BackendPropsArg → Value
  | .noneA => .nonety
  | .one p => .backendPropsV p
  | .many ps => .listV (ps.map Value.backendPropsV)

/-- The parsed `approximation_degree` slot as a Python value. -/
def approxValue : ApproxArg → Value
  | .noneA => .nonety
  | .one q => .ratV q
  | .many es => .listV (es.map (fun e =>
      match e with | some q => Value.ratV q | none => Value.nonety))

/-- The `seed_transpiler` argument as a Python value. -/
def seedValue : SeedArg → Value
  | .noneA => .nonety
  | .one n => .natV n
  | .many ns => .listV (ns.map Value.natV)

/-- The `unitary_synthesis_plugin_config` argument as a Python value. -/
def uspcValue : UspcArg → Value
  | .noneA => .nonety
  | .one d => .uspcV d
  | .many ds => .listV (ds.map Value.uspcV)

/-- The `hls_config` argument as a Python value. -/
def hlsValue : HlsArg → Value
  | .noneA => .nonety
  | .one h => .hlsV h
  | .many hs => .listV (hs.map Value.hlsV)

/-- A parsed initial-layout entry as a Python value. -/
def layoutEntryValue : ParsedLayoutEntry → Value
  | .noneP => .nonety
  | .layP l => .layoutV l
  | .qbP q => .qubitV q
  | .intP n => .intV n

/-- A resolved target as a Python value. -/
def targetValue : Option Target → Value
  | none => .nonety
  | some t => .targetV t

/-- A parsed per-circuit duration table as a Python value. -/
def durationsValue : Option InstructionDurations → Value
  | none => .nonety
  | some d => .durationsV d

/-- A basis-gate list as a Python value. -/
def basisGatesValue : Option (List String) → Value
  | none => .nonety
  | some gs => .listV (gs.map Value.str)

/-- An optional string as a Python value. -/
def optStrValue : Option String → Value
  | none => .nonety
  | some s => .str s

/-- The transpile() keyword arguments (each in the shape it can arrive in,
including the deprecated per-circuit broadcast lists). A list of backends
is a legacy shape not modelled. -/
structure TranspileArgs where
  backend : Option Backend
  basis_gates : Option (List String)
  inst_map : InstMapArg
  coupling_map : CouplingMapArg
  backend_properties : BackendPropsArg
  initial_layout : InitialLayoutArg
  layout_method : StrArg
  routing_method : StrArg
  translation_method : StrArg
  scheduling_method : StrArg
  instruction_durations : InstDurArg
  dt : Option Rat
  approximation_degree : ApproxArg
  timing_constraints : TimingConstraintsArg
  seed_transpiler : SeedArg
  optimization_level : Option Nat
  callback : CallbackArg
  output_name : OutputNameArg
  unitary_synthesis_method : StrArg
  unitary_synthesis_plugin_config : UspcArg
  target : Option Target
  hls_config : HlsArg
  init_method : Option String
  optimization_method : Option String
  ignore_backend_supplied_default_methods : Bool

/-- The defaults of the transpile() signature (lines 56-83). -/
def TranspileArgs.defaults : TranspileArgs :=
  { backend := none
    basis_gates := none
    inst_map := .noneA
    coupling_map := .noneA
    backend_properties := .noneA
    initial_layout := .noneA
    layout_method := .noneA
    routing_method := .noneA
    translation_method := .noneA
    scheduling_method := .noneA
    instruction_durations := .noneA
    dt := none
    approximation_degree := .one 1
    timing_constraints := .noneA
    seed_transpiler := .noneA
    optimization_level := none
    callback := .noneA
    output_name := .noneA
    unitary_synthesis_method := .one "default"
    unitary_synthesis_plugin_config := .noneA
    target := none
    hls_config := .noneA
    init_method := none
    optimization_method := none
    ignore_backend_supplied_default_methods := false }

/-- The argument slots rewritten by the target-override block. -/
structure ResolvedArgs where
  coupling_map : CouplingMapArg
  basis_gates : Option (List String)
  instruction_durations : InstDurArg
  inst_map : InstMapArg
  dt : Option Rat
  timing_constraints : TimingConstraintsArg
  backend_properties : BackendPropsArg
  target : Option Target

/-- Mirrors transpiler.py lines 534-555: a specified target fills exactly
the argument slots that are None (an explicitly passed argument keeps its
value); with no target and neither basis gates nor coupling map given, the
target falls back to the backend's. -/
def applyTargetDefaults (a : TranspileArgs) : ResolvedArgs :=
  match a.target with
  | some t =>
    { coupling_map :=
        match a.coupling_map with
        | .noneA =>
          match t.build_coupling_map with
          | some c => .cmap c
          | none => .noneA
        | x => x
      basis_gates :=
        match a.basis_gates with
        | none => some t.operation_names
        | some g => some g
      instruction_durations :=
        match a.instruction_durations with
        | .noneA => .table t.durations
        | x => x
      inst_map :=
        match a.inst_map with
        | .noneA => .one t.instruction_schedule_map
        | x => x
      dt :=
        match a.dt with
        | none => t.dt
        | some q => some q
      timing_constraints :=
        match a.timing_constraints with
        | .noneA => .obj t.timing_constraints
        | x => x
      backend_properties :=
        match a.backend_properties with
        | .noneA => .one (target_to_backend_properties t)
        | x => x
      target := some t }
  | none =>
    { coupling_map := a.coupling_map
      basis_gates := a.basis_gates
      instruction_durations := a.instruction_durations
      inst_map := a.inst_map
      dt := a.dt
      timing_constraints := a.timing_constraints
      backend_properties := a.backend_properties
      target :=
        if a.basis_gates = none ∧ a.coupling_map = CouplingMapArg.noneA then
          _parse_target a.backend none
        else none }

/-- Mirrors `isinstance(x, (Layout, dict, list))` for a Python-list
element of the user's initial_layout. -/
def PylistEntry.isLayoutDictOrList : PylistEntry → Bool
  | .lst _ => true
  | .dctE _ => true
  | .layE _ => true
  | _ => false

/-- The condition of transpiler.py lines 624-643 under which a list value
for `key` triggers the broadcast deprecation warning. -/
def legacyWarnCond (key : String) (userDur : InstDurArg)
    (userTiming : TimingConstraintsArg) (userLayout : InitialLayoutArg) : Bool :=
  (!(key == "instruction_durations" || key == "timing_constraints" || key == "initial_layout"))
  || (key == "initial_layout" &&
      (match userLayout with
       | .pylist (e :: _) => e.isLayoutDictOrList
       | _ => false))
  || (key == "instruction_durations" &&
      (match userDur with
       | .pylist (e :: _) => (match e with | .lst _ => true | .tab _ => true | _ => false)
       | _ => false))
  || (key == "timing_constraints" &&
      (match userTiming with
       | .pylist (_ :: _) => true
       | _ => false))

/-- The deprecation-warning text for key `key`. -/
def broadcastWarning (key : String) : PyWarning :=
  .deprecationWarning ("Passing in a list of arguments for " ++ key ++
    " is deprecated and will no longer work starting in the 0.25.0 release.")

/-- Mirrors the routing loop of lines 596-652: list-valued entries go to
the per-circuit dict (warning when the legacy condition holds), scalar
entries to the shared dict. -/
def routeArgs (userDur : InstDurArg) (userTiming : TimingConstraintsArg)
    (userLayout : InitialLayoutArg) :
    List (String × Value) → PyDict → PyDict → List PyWarning →
    PyDict × PyDict × List PyWarning
  | [], uniqueD, sharedD, warns => (uniqueD, sharedD, warns)
  | (key, value) :: rest, uniqueD, sharedD, warns =>
    if value.isList then
      let warns' :=
        if legacyWarnCond key userDur userTiming userLayout then
          warns ++ [broadcastWarning key]
        else warns
      routeArgs userDur userTiming userLayout rest (uniqueD.set key value) sharedD warns'
    else
      routeArgs userDur userTiming userLayout rest uniqueD (sharedD.set key value) warns

/-- The length a Python `zip` sees for a dict value (all values reaching
`_zip_dict` are lists). -/
def Value.listLen : Value → Nat
  | .listV vs => vs.length
  | _ => 0

/-- Indexing into a list value. -/
def Value.atIdx : Value → Nat → Value
  | .listV vs, i => vs.getD i .nonety
  | _, _ => .nonety

/-- The dict of the i-th zipped values: same keys, i-th list element as
value. -/
def applyIdx (d : PyDict) (i : Nat) : PyDict :=
  d.map (fun kv => (kv.1, kv.2.atIdx i))

/-- Mirrors `_zip_dict` (lines 903-908): zip the value lists, stopping at
the shortest, producing one dict per index with the same keys. -/
def zipDict (d : PyDict) : List PyDict :=
  match d with
  | [] => []
  | _ =>
    let n := ((d.map (fun kv => kv.2.listLen)).min?).getD 0
    (List.range n).map (applyIdx d)

/-- One element of the list returned by `_parse_transpile_args`: the
popped per-circuit slots plus the remaining per-circuit
pass-manager-config dict. -/
structure UniqueOut where
  output_name : Value
  callback : Value
  backend_num_qubits : Value
  pass_manager_config : PyDict

/-- The result of `_parse_transpile_args`: per-circuit argument bundles,
the shared dict, and the warnings emitted on the way. -/
structure ParseOut where
  uniqueArgs : List UniqueOut
  sharedDict : PyDict
  warnings : List PyWarning

/-- The intermediate values produced by the fallible helper calls of
`_parse_transpile_args` (lines 530-576). -/
structure ParsedPieces where
  basis_gates : Option (List String)
  initial_layout : List ParsedLayoutEntry
  inst_map : InstMapArg
  coupling_map : Value
  backend_properties : BackendPropsArg
  backend_num_qubits : List (Option Nat)
  approximation_degree : ApproxArg
  output_name : List String
  callback : List (Option Nat)
  durations : List (Option InstructionDurations)
  timing_constraints : List TimingConstraints
  targetAdj : Option Target

/-- The fallible prefix of `_parse_transpile_args` (lines 530-576): the
helper calls in source order, the custom-calibration target adjustment,
and the scheduling-method durations check. -/
def parsePieces (circuits : List Program) (a : TranspileArgs) :
    Except PyError ParsedPieces := do
  let num_circuits := circuits.length
  let r := applyTargetDefaults a
  let basis_gates := _parse_basis_gates r.basis_gates a.backend
  let initial_layout ← _parse_initial_layout a.initial_layout circuits
  let inst_map ← _parse_inst_map r.inst_map a.backend
  let coupling_map ← _parse_coupling_map r.coupling_map a.backend
  let backend_properties ← _parse_backend_properties r.backend_properties a.backend
  let backend_num_qubits ← _parse_backend_num_qubits a.backend num_circuits
  let approximation_degree ← _parse_approximation_degree a.approximation_degree
  let output_name ← _parse_output_name a.output_name circuits
  let callback := _parse_callback a.callback num_circuits
  let durations ← _parse_instruction_durations a.backend r.instruction_durations r.dt circuits
  let timing_constraints ← _parse_timing_constraints a.backend r.timing_constraints num_circuits
  let targetAdj ←
    match inst_map with
    | .noneA => pure r.target
    | .one m =>
      if m.has_custom_gate then
        match r.target with
        | some t => pure (some (t.update_from_inst_map m))
        | none => pure r.target
      else pure r.target
    | .many _ => Except.error (PyError.attributeError "list object has no attribute has_custom_gate")
  if a.scheduling_method.truthy ∧ durations.any (fun d => d.isNone) then
    Except.error (PyError.transpilerError "Transpiling a circuit with a scheduling method requires a backend or instruction_durations.")
  else
    pure { basis_gates, initial_layout, inst_map, coupling_map, backend_properties,
           backend_num_qubits, approximation_degree, output_name, callback, durations,
           timing_constraints, targetAdj }

/-- The initial per-circuit dict of `_parse_transpile_args` (lines
577-581). -/
def assembleUniqueBase (p : ParsedPieces) : PyDict := [
  ("callback", Value.listV (p.callback.map Value.callbackV)),
  ("output_name", Value.listV (p.output_name.map Value.str)),
  ("backend_num_qubits", Value.listV (p.backend_num_qubits.map (fun x =>
    match x with | some n => Value.natV n | none => Value.nonety)))]

/-- The initial shared dict of `_parse_transpile_args` (lines 582-587). -/
def assembleSharedBase (a : TranspileArgs) (optimization_level : Nat)
    (p : ParsedPieces) : PyDict := [
  ("optimization_level", Value.natV optimization_level),
  ("basis_gates", basisGatesValue p.basis_gates),
  ("init_method", optStrValue a.init_method),
  ("optimization_method", optStrValue a.optimization_method)]

/-- The scheduling method after the backend-supplied default (lines
590-592). -/
def defaultSchedulingMethod (a : TranspileArgs) : StrArg :=
  if !a.ignore_backend_supplied_default_methods && a.scheduling_method == StrArg.noneA then
    match a.backend.bind Backend.get_scheduling_stage_plugin with
    | some pl => StrArg.one pl
    | none => a.scheduling_method
  else a.scheduling_method

/-- The translation method after the backend-supplied default (lines
593-594). -/
def defaultTranslationMethod (a : TranspileArgs) : StrArg :=
  if !a.ignore_backend_supplied_default_methods && a.translation_method == StrArg.noneA then
    match a.backend.bind Backend.get_translation_stage_plugin with
    | some pl => StrArg.one pl
    | none => a.translation_method
  else a.translation_method

/-- The key/value pairs iterated by the routing loop, in source order
(lines 596-613). -/
def assembleEntries (a : TranspileArgs) (p : ParsedPieces) : List (String × Value) := [
  ("inst_map", instMapValue p.inst_map),
  ("coupling_map", p.coupling_map),
  ("backend_properties", backendPropsValue p.backend_properties),
  ("approximation_degree", approxValue p.approximation_degree),
  ("initial_layout", Value.listV (p.initial_layout.map layoutEntryValue)),
  ("layout_method", strArgValue a.layout_method),
  ("routing_method", strArgValue a.routing_method),
  ("translation_method", strArgValue (defaultTranslationMethod a)),
  ("scheduling_method", strArgValue (defaultSchedulingMethod a)),
  ("instruction_durations", Value.listV (p.durations.map durationsValue)),
  ("timing_constraints", Value.listV (p.timing_constraints.map Value.timingV)),
  ("seed_transpiler", seedValue a.seed_transpiler),
  ("unitary_synthesis_method", strArgValue a.unitary_synthesis_method),
  ("unitary_synthesis_plugin_config", uspcValue a.unitary_synthesis_plugin_config),
  ("target", targetValue p.targetAdj),
  ("hls_config", hlsValue a.hls_config)]

/-- The routing loop applied to the assembled entries. -/
def assembleRouted (a : TranspileArgs) (optimization_level : Nat)
    (p : ParsedPieces) : PyDict × PyDict × List PyWarning :=
  routeArgs a.instruction_durations a.timing_constraints a.initial_layout
    (assembleEntries a p) (assembleUniqueBase p)
    (assembleSharedBase a optimization_level p) []

/-- One per-circuit bundle from a zipped kwargs dict: the three popped
slots and the remaining pass-manager-config dict (lines 654-661). -/
def mkUniqueOut (kw : PyDict) : UniqueOut :=
  { output_name := (kw.get? "output_name").getD Value.nonety
    callback := (kw.get? "callback").getD Value.nonety
    backend_num_qubits := (kw.get? "backend_num_qubits").getD Value.nonety
    pass_manager_config :=
      ((kw.erase "output_name").erase "callback").erase "backend_num_qubits" }

/-- The total assembly suffix of `_parse_transpile_args` (lines 526-527 and
577-663): initial shared/unique dicts, backend-supplied default methods,
the routing loop with its deprecation warnings, and `_zip_dict`. -/
def assembleParsedArgs (a : TranspileArgs) (optimization_level : Nat)
    (p : ParsedPieces) : ParseOut :=
  let warns0 : List PyWarning :=
    if a.initial_layout ≠ InitialLayoutArg.noneA ∧ a.layout_method ≠ StrArg.noneA then
      [.userWarning "initial_layout provided; layout_method is ignored."]
    else []
  let routed := assembleRouted a optimization_level p
  { uniqueArgs := (zipDict routed.1).map mkUniqueOut
    sharedDict := routed.2.1
    warnings := warns0 ++ routed.2.2 }

/-- Mirrors `_parse_transpile_args` (lines 483-663): the fallible helper
calls followed by the total assembly of the shared and per-circuit
argument dicts. -/
def _parse_transpile_args (circuits : List Program) (a : TranspileArgs)
    (optimization_level : Nat) : Except PyError ParseOut :=
  match parsePieces circuits a with
  | .error e => .error e
  | .ok p => .ok (assembleParsedArgs a optimization_level p)

end Qiskit

namespace Qiskit

/-- The backend part of the per-circuit qubit budget (lines 395-402): the
backend's qubit count, except that a version <= 1 simulator backend
imposes no limit (`none`). -/
def backendMaxQubits (backend : Option Backend) : Except PyError (Option Nat) :=
  match backend with
  | none => .ok none
  | some b =>
    if b.version ≤ 1 then
      match b.configuration with
      | some cfg => .ok (if !cfg.simulator then some cfg.n_qubits else none)
      | none => .error (.attributeError "backend object has no attribute configuration")
    else .ok (some b.num_qubits)

/-- The per-circuit qubit budget of `_check_circuits_coupling_map` (lines
389-402): the resolved coupling map's size when present; otherwise the
backend's count via `backendMaxQubits` (`none` means no limit applies). -/
def maxQubitsOf (parsed_coupling_map : Value) (backend : Option Backend) :
    Except PyError (Option Nat) :=
  match parsed_coupling_map with
  | .couplingMapV c => .ok (some c.size)
  | _ => backendMaxQubits backend

/-- The recursion of `_check_circuits_coupling_map` over the zipped
(circuit, parsed coupling map) pairs. -/
def checkCouplingGo : List (Program × Value) → Option Backend → Except PyError Unit
  | [], _ => .ok ()
  | (circuit, parsed_coupling_map) :: rest, backend =>
    match circuit.qubits with
    | .error e => .error e
    | .ok qs =>
      match maxQubitsOf parsed_coupling_map backend with
      | .error e => .error e
      | .ok max_qubits =>
        match max_qubits with
        | some m =>
          if qs.length > m then
            Except.error (PyError.transpilerError "Number of qubits in circuit is greater than maximum in the coupling_map")
          else checkCouplingGo rest backend
        | none => checkCouplingGo rest backend

/-- Mirrors `_check_circuits_coupling_map` (lines 385-408): per circuit,
the qubit budget is the parsed coupling map's size when one is resolved,
else the backend's qubit count (which for a version <= 1 backend applies
only when it is not a simulator); a circuit exceeding its budget raises a
`TranspilerError`. -/
def _check_circuits_coupling_map (circuits : List Program) (cmap_conf : List Value)
    (backend : Option Backend) : Except PyError Unit :=
  checkCouplingGo (circuits.zip cmap_conf) backend

/-- The per-circuit transpile configuration produced by `_combine_args`
(`transpile_config` plus the selected optimization level standing for the
chosen preset pass manager). -/
structure TranspileConfigOut where
  callback : Value
  output_name : Value
  backend_num_qubits : Value
  level : Nat
  pmc : PassManagerConfig

/-- Mirrors `_combine_args` (lines 416-441): pop the optimization level
from the shared dict, merge the per-circuit pass-manager-config entries
into it (this mutates the shared dict, whose post-state is returned),
build the PassManagerConfig, restore the optimization level, and select a
preset pass manager for levels 0-3 (anything else raises). -/
def _combine_args (shared : PyDict) (u : UniqueOut) :
    Except PyError (TranspileConfigOut × PyDict) :=
  match shared.get? "optimization_level" with
  | none => .error (.keyError "optimization_level")
  | some levelV =>
    let s1 := shared.erase "optimization_level"
    let d := s1.update u.pass_manager_config
    let pmc := mkPassManagerConfig d
    let newShared := d.set "optimization_level" levelV
    match levelV with
    | .natV l =>
      if l ≤ 3 then
        .ok (⟨u.callback, u.output_name, u.backend_num_qubits, l, pmc⟩, newShared)
      else .error (.transpilerError "optimization_level can range from 0 to 3.")
    | _ => .error (.transpilerError "optimization_level can range from 0 to 3.")

/-- The circuit transformation performed by the preset pass manager of a
given optimization level and configuration. The pass pipeline itself is an
external component (qiskit.transpiler.preset_passmanagers, not in src/),
so it is abstracted as a function parameter of the model. -/
def CompileFn : Type := Nat → PassManagerConfig → QuantumCircuit → QuantumCircuit

/-- Modelled from the spec: `pass_manager.run(circuit, callback=...,
output_name=...)` (used by `_serial_transpile_circuit` and
`_transpile_circuit`): the stages transform the circuit and the output
carries `output_name`; the callback is a pure observer that must not
affect the outcome (spec 4.4), so it does not enter the result. Running a
pulse schedule through a pass manager fails. -/
def passManagerRun (compile : CompileFn) (tc : TranspileConfigOut) (p : Program) :
    Except PyError Program :=
  match p with
  | .schedule _ => .error (.attributeError "Schedule cannot be run through a PassManager")
  | .circuit c =>
    let c1 := compile tc.level tc.pmc c
    match tc.output_name with
    | .str s => .ok (.circuit { c1 with name := s })
    | _ => .ok (.circuit c1)

/-- Mirrors `_transpile_circuit` (lines 453-480), the parallel worker: it
loads its own copy of the shared arguments from the shared-memory pickle
(the dump/load round trip is modelled as the identity on the dict, per the
spec's serialize-once/read-many contract), combines them with the
per-circuit arguments and runs the selected pass manager. -/
def _transpile_circuit (compile : CompileFn) (sharedArgsPickled : PyDict)
    (cu : Program × UniqueOut) : Except PyError Program :=
  match _combine_args sharedArgsPickled cu.2 with
  | .error e => .error e
  | .ok tcs => passManagerRun compile tcs.1 cu.1

/-- The serial branch of transpile (lines 366-378): iterate the circuits in
order, threading the (mutated) shared dict through `_combine_args`. -/
def runSerialGo (compile : CompileFn) : PyDict → List (Program × UniqueOut) →
    Except PyError (List Program)
  | _, [] => .ok []
  | s, cu :: rest =>
    match _combine_args s cu.2 with
    | .error e => .error e
    | .ok tcs =>
      match passManagerRun compile tcs.1 cu.1 with
      | .error e => .error e
      | .ok out =>
        match runSerialGo compile tcs.2 rest with
        | .error e => .error e
        | .ok outs => .ok (out :: outs)

/-- The parallel branch of transpile (lines 355-365): the shared dict is
pickled once and every worker maps `_transpile_circuit` over its own
(circuit, unique-config) pair; `parallel_map` is modelled from the spec
(section 4.6/5): order-preserving fan-out whose per-circuit failures
propagate to the caller. -/
def runParallel (compile : CompileFn) (shared : PyDict) :
    List (Program × UniqueOut) → Except PyError (List Program)
  | [] => .ok []
  | cu :: rest =>
    match _transpile_circuit compile shared cu with
    | .error e => .error e
    | .ok out =>
      match runParallel compile shared rest with
      | .error e => .error e
      | .ok outs => .ok (out :: outs)

/-- The `circuits` parameter: a single circuit/schedule or a list. -/
inductive TranspileInput where
  | single (p : Program)
  | listIn (ps : List Program)
  deriving Repr, DecidableEq

/-- The return shape of transpile(): one compiled circuit or a list. -/
inductive TranspileOutput where
  | single (p : Program)
  | listOut (ps : List Program)
  deriving Repr, DecidableEq

/-- Mirrors `circuits if arg_circuits_list else [circuits]`. -/
def TranspileInput.toList : TranspileInput → List Program
  | .single p => [p]
  | .listIn ps => ps

/-- Mirrors `isinstance(circuits, list)`. -/
def TranspileInput.isList : TranspileInput → Bool
  | .single _ => false
  | .listIn _ => true

/-- Mirrors `circuits if arg_circuits_list else circuits[0]` (an empty
result for a single input would raise `IndexError`). -/
def shapeBack (isList : Bool) (outs : List Program) : Except PyError TranspileOutput :=
  if isList then .ok (.listOut outs)
  else
    match outs with
    | x :: _ => .ok (.single x)
    | [] => .error (.indexError "list index out of range")

/-- Mirrors transpile lines 344-349: the per-circuit coupling-map
configuration comes from the shared dict when routed there, else from each
per-circuit pass-manager config. -/
def cmapConfOf (pr : ParseOut) (numCircuits : Nat) : Except PyError (List Value) :=
  match pr.sharedDict.get? "coupling_map" with
  | some v => .ok (List.replicate numCircuits v)
  | none =>
    pr.uniqueArgs.mapM (fun u =>
      match u.pass_manager_config.get? "coupling_map" with
      | some v => Except.ok v
      | none => Except.error (PyError.keyError "coupling_map"))

/-- Mirrors `transpile` (lines 56-382). `compile` abstracts the preset
pass managers (external component); `useParallel` models
`os.getenv("QISKIT_IN_PARALLEL") == "FALSE" and parallel.PARALLEL_DEFAULT`;
`userConfigLevel` models `user_config.get_config()` supplying the default
optimization level. The returned warnings are those emitted on the
successful path (an exception in Python discards no already-emitted
warning, but no claim depends on warnings of failing runs). -/
def transpile (compile : CompileFn) (useParallel : Bool) (userConfigLevel : Option Nat)
    (a : TranspileArgs) (input : TranspileInput) :
    Except PyError (TranspileOutput × List PyWarning) :=
  let arg_circuits_list := input.isList
  let circuits := input.toList
  if circuits.isEmpty then .ok (.listOut [], [])
  else if circuits.all Program.isSchedule then
    match shapeBack arg_circuits_list circuits with
    | .error e => .error e
    | .ok out => .ok (out, [.userWarning "Transpiling schedules is not supported yet."])
  else
    let optimization_level := a.optimization_level.getD (userConfigLevel.getD 1)
    let warns0 : List PyWarning :=
      if a.scheduling_method ≠ StrArg.noneA ∧ a.backend = none ∧ a.target = none ∧
          !a.instruction_durations.truthy then
        [.userWarning "When scheduling circuits without backend, instruction_durations should be usually provided."]
      else []
    match _parse_transpile_args circuits a optimization_level with
    | .error e => .error e
    | .ok pr =>
      match cmapConfOf pr circuits.length with
      | .error e => .error e
      | .ok cmap_conf =>
        match _check_circuits_coupling_map circuits cmap_conf a.backend with
        | .error e => .error e
        | .ok _ =>
          let pairs := circuits.zip pr.uniqueArgs
          let res :=
            if circuits.length > 1 ∧ useParallel then
              runParallel compile pr.sharedDict pairs
            else
              runSerialGo compile pr.sharedDict pairs
          match res with
          | .error e => .error e
          | .ok outs =>
            match shapeBack arg_circuits_list outs with
            | .error e => .error e
            | .ok out => .ok (out, warns0 ++ pr.warnings)

end Qiskit

namespace Qiskit

/- Concrete circuits, backends and argument bundles used as evaluation
inputs by the witnesses and counterexamples below, and the remaining
definitions referenced by the theorems. -/

/-- Agreement of two dicts on every key outside `K`. -/
def agreeOutside (K : List String) (s t : PyDict) : Prop :=
  ∀ k, k ∉ K → PyDict.get? s k = PyDict.get? t k

/-- A three-qubit circuit used as a concrete witness input. -/
def circuit3 : QuantumCircuit :=
  { name := "circ3", qubits := [⟨"q", 0⟩, ⟨"q", 1⟩, ⟨"q", 2⟩], calibrations := [], body := 0 }

/-- The identity pass pipeline, used to evaluate the model at concrete
inputs. -/
def idCompile : CompileFn := fun _ _ c => c

/-- A one-qubit circuit used as a concrete input. -/
def circuit1 : QuantumCircuit :=
  { name := "circ1", qubits := [⟨"q", 0⟩], calibrations := [], body := 0 }

def c1WitnessArgs : TranspileArgs :=
  { TranspileArgs.defaults with coupling_map := .cmap ⟨[(0, 1)]⟩ }

def circuit2q : QuantumCircuit :=
  { name := "circ2", qubits := [⟨"q", 0⟩, ⟨"q", 1⟩], calibrations := [], body := 0 }

def simulatorBackend1Q : Backend :=
  { version := 1
    configuration := some
      { simulator := true, n_qubits := 1, basis_gates := none, coupling_map := none,
        timing_constraints := none }
    properties := none, defaults := none, target := none, num_qubits := 0,
    operation_names := [], coupling_map := none,
    instruction_durations := InstructionDurations.empty,
    durations_from_properties := none,
    get_scheduling_stage_plugin := none, get_translation_stage_plugin := none }

/-- Two circuits and per-slot broadcast lists for every argument the
routing loop treats as a legacy per-circuit list (all the non-list-typed
keys other than the object-typed inst_map / timing_constraints / target
slots, whose list shapes crash in the helpers). -/
def c9BroadcastArgs (lm1 lm2 rm1 rm2 tm1 tm2 sm1 sm2 um1 um2 : String)
    (s1 s2 u1 u2 : Nat) (h1 h2 : HLSConfig) (bp1 bp2 : BackendProperties) :
    TranspileArgs :=
  { TranspileArgs.defaults with
    layout_method := .many [lm1, lm2]
    routing_method := .many [rm1, rm2]
    translation_method := .many [tm1, tm2]
    scheduling_method := .many [sm1, sm2]
    unitary_synthesis_method := .many [um1, um2]
    seed_transpiler := .many [s1, s2]
    unitary_synthesis_plugin_config := .many [u1, u2]
    hls_config := .many [h1, h2]
    backend_properties := .many [bp1, bp2]
    approximation_degree := .many [some 1, some 0] }

/-- The keys whose broadcast lists trigger the deprecation warning in the
run of `c9BroadcastArgs`, in routing-loop order. -/
def c9WarnKeys : List String :=
  ["backend_properties", "approximation_degree", "layout_method",
   "routing_method", "translation_method", "scheduling_method",
   "seed_transpiler", "unitary_synthesis_method",
   "unitary_synthesis_plugin_config", "hls_config"]

def c4Target : Target :=
  ⟨none, ["x"], InstructionDurations.empty, ⟨false, 0⟩, none,
    TimingConstraints.ofDict TimingDict.empty, none⟩

end Qiskit


namespace Qiskit

theorem PyDict.get?_set_self : ∀ (d : PyDict) (k : String) (v : Value),
    PyDict.get? (PyDict.set d k v) k = some v
  | [], k, v => by simp [PyDict.set, PyDict.get?]
  | (k0, v0) :: rest, k, v => by
    by_cases h : k0 = k
    · simp [PyDict.set, h, PyDict.get?]
    · simp only [PyDict.set, if_neg h, PyDict.get?, if_neg h]
      exact PyDict.get?_set_self rest k v

theorem PyDict.get?_set_ne : ∀ (d : PyDict) (k k' : String) (v : Value), k' ≠ k →
    PyDict.get? (PyDict.set d k v) k' = PyDict.get? d k'
  | [], k, k', v, h => by
    have hne : ¬k = k' := fun hh => h hh.symm
    simp [PyDict.set, PyDict.get?, hne]
  | (k0, v0) :: rest, k, k', v, h => by
    by_cases h0 : k0 = k
    · subst h0
      have hne : ¬k0 = k' := fun hh => h hh.symm
      simp [PyDict.set, PyDict.get?, hne]
    · simp only [PyDict.set, if_neg h0, PyDict.get?]
      by_cases h1 : k0 = k'
      · simp [h1]
      · simp only [if_neg h1]
        exact PyDict.get?_set_ne rest k k' v h

theorem PyDict.get?_erase_ne : ∀ (d : PyDict) (k k' : String), k' ≠ k →
    PyDict.get? (PyDict.erase d k) k' = PyDict.get? d k'
  | [], _, _, _ => by simp [PyDict.erase]
  | (k0, v0) :: rest, k, k', h => by
    by_cases h0 : k0 = k
    · subst h0
      have hne : ¬k0 = k' := fun hh => h hh.symm
      simp [PyDict.erase, PyDict.get?, hne]
    · simp only [PyDict.erase, if_neg h0, PyDict.get?]
      by_cases h1 : k0 = k'
      · simp [h1]
      · simp only [if_neg h1]
        exact PyDict.get?_erase_ne rest k k' h

theorem PyDict.mem_keys_set : ∀ (d : PyDict) (k : String) (v : Value) (a : String),
    a ∈ PyDict.keys (PyDict.set d k v) → a ∈ PyDict.keys d ∨ a = k
  | [], k, v, a => by
    simp [PyDict.set, PyDict.keys]
  | (k0, v0) :: rest, k, v, a => by
    by_cases h0 : k0 = k
    · simp only [PyDict.set, if_pos h0, PyDict.keys, List.map_cons, List.mem_cons]
      rintro (h | h)
      · exact Or.inr h
      · exact Or.inl (Or.inr h)
    · simp only [PyDict.set, if_neg h0, PyDict.keys, List.map_cons, List.mem_cons]
      rintro (h | h)
      · exact Or.inl (Or.inl h)
      · rcases PyDict.mem_keys_set rest k v a (by simpa [PyDict.keys] using h) with hh | hh
        · exact Or.inl (Or.inr (by simpa [PyDict.keys] using hh))
        · exact Or.inr hh

theorem PyDict.mem_keys_erase : ∀ (d : PyDict) (k : String) (a : String),
    a ∈ PyDict.keys (PyDict.erase d k) → a ∈ PyDict.keys d
  | [], _, _ => by simp [PyDict.erase]
  | (k0, v0) :: rest, k, a => by
    by_cases h0 : k0 = k
    · simp only [PyDict.erase, if_pos h0, PyDict.keys, List.map_cons, List.mem_cons]
      intro h
      exact Or.inr h
    · simp only [PyDict.erase, if_neg h0, PyDict.keys, List.map_cons, List.mem_cons]
      rintro (h | h)
      · exact Or.inl h
      · exact Or.inr (by
          simpa [PyDict.keys] using PyDict.mem_keys_erase rest k a (by simpa [PyDict.keys] using h))

theorem PyDict.get?_update_not_mem : ∀ (u d : PyDict) (k : String),
    k ∉ PyDict.keys u → PyDict.get? (PyDict.update d u) k = PyDict.get? d k
  | [], d, k, _ => by simp [PyDict.update]
  | (k0, v0) :: rest, d, k, h => by
    simp only [PyDict.keys, List.map_cons, List.mem_cons, not_or] at h
    have step : PyDict.get? (PyDict.update (PyDict.set d k0 v0) rest) k
        = PyDict.get? (PyDict.set d k0 v0) k :=
      PyDict.get?_update_not_mem rest (PyDict.set d k0 v0) k (by
        intro hm
        exact h.2 (by simpa [PyDict.keys] using hm))
    have step2 : PyDict.get? (PyDict.set d k0 v0) k = PyDict.get? d k :=
      PyDict.get?_set_ne d k0 k v0 h.1
    simp only [PyDict.update, List.foldl_cons]
    simp only [PyDict.update] at step
    rw [step, step2]

theorem PyDict.get?_update_mem : ∀ (u d e : PyDict) (k : String),
    k ∈ PyDict.keys u → PyDict.get? (PyDict.update d u) k = PyDict.get? (PyDict.update e u) k
  | [], _, _, k, h => by simp [PyDict.keys] at h
  | (k0, v0) :: rest, d, e, k, h => by
    by_cases hr : k ∈ PyDict.keys rest
    · simp only [PyDict.update, List.foldl_cons]
      have := PyDict.get?_update_mem rest (PyDict.set d k0 v0) (PyDict.set e k0 v0) k hr
      simpa [PyDict.update] using this
    · have hk0 : k = k0 := by
        simp only [PyDict.keys, List.map_cons, List.mem_cons] at h
        rcases h with h | h
        · exact h
        · exact absurd (by simpa [PyDict.keys] using h) hr
      subst hk0
      have h1 : PyDict.get? (PyDict.update (PyDict.set d k v0) rest) k
          = PyDict.get? (PyDict.set d k v0) k := PyDict.get?_update_not_mem rest _ k hr
      have h2 : PyDict.get? (PyDict.update (PyDict.set e k v0) rest) k
          = PyDict.get? (PyDict.set e k v0) k := PyDict.get?_update_not_mem rest _ k hr
      simp only [PyDict.update, List.foldl_cons]
      simp only [PyDict.update] at h1 h2
      rw [h1, h2, PyDict.get?_set_self, PyDict.get?_set_self]

end Qiskit

namespace Qiskit


theorem merged_get?_eq (K : List String) (s t u : PyDict)
    (hK : PyDict.keys u = K) (hag : agreeOutside K s t)
    (k : String) (hne : k ≠ "optimization_level") :
    PyDict.get? (PyDict.update (PyDict.erase s "optimization_level") u) k
    = PyDict.get? (PyDict.update (PyDict.erase t "optimization_level") u) k := by
  by_cases hm : k ∈ PyDict.keys u
  · exact PyDict.get?_update_mem u _ _ k hm
  · rw [PyDict.get?_update_not_mem u _ k hm, PyDict.get?_update_not_mem u _ k hm,
        PyDict.get?_erase_ne s _ k hne, PyDict.get?_erase_ne t _ k hne]
    exact hag k (by rw [← hK]; exact hm)

theorem mkPMC_merged_eq (K : List String) (s t u : PyDict)
    (hK : PyDict.keys u = K) (hag : agreeOutside K s t) :
    mkPassManagerConfig (PyDict.update (PyDict.erase s "optimization_level") u)
    = mkPassManagerConfig (PyDict.update (PyDict.erase t "optimization_level") u) := by
  have h := merged_get?_eq K s t u hK hag
  simp only [mkPassManagerConfig]
  congr 1 <;> exact h _ (by decide)

theorem combine_args_agree (s shared : PyDict) (u : UniqueOut) (K : List String)
    (hK : PyDict.keys u.pass_manager_config = K)
    (hopt : ("optimization_level" : String) ∉ K)
    (hag : agreeOutside K s shared) :
    Except.map Prod.fst (_combine_args s u) = Except.map Prod.fst (_combine_args shared u)
    ∧ ∀ tc s', _combine_args s u = .ok (tc, s') → agreeOutside K s' shared := by
  have hopt' : PyDict.get? s "optimization_level" = PyDict.get? shared "optimization_level" :=
    hag _ hopt
  have hmk := mkPMC_merged_eq K s shared u.pass_manager_config hK hag
  unfold _combine_args
  rw [hopt']
  cases hlev : PyDict.get? shared "optimization_level" with
  | none =>
    exact ⟨rfl, fun tc s' h => by cases h⟩
  | some levelV =>
    dsimp only
    cases levelV with
    | natV l =>
      dsimp only
      by_cases hl : l ≤ 3
      · refine ⟨?_, ?_⟩
        · rw [if_pos hl, if_pos hl]
          dsimp only [Except.map]
          rw [hmk]
        · intro tc s' h
          rw [if_pos hl] at h
          have hs' : s' = PyDict.set
              (PyDict.update (PyDict.erase s "optimization_level") u.pass_manager_config)
              "optimization_level" (Value.natV l) := by
            cases h
            rfl
          rw [hs']
          intro k hk
          by_cases hko : k = "optimization_level"
          · subst hko
            rw [PyDict.get?_set_self, hlev]
          · rw [PyDict.get?_set_ne _ _ _ _ hko,
                PyDict.get?_update_not_mem _ _ _ (by rw [hK]; exact hk),
                PyDict.get?_erase_ne _ _ _ hko]
            exact hag k hk
      · refine ⟨?_, ?_⟩
        · rw [if_neg hl, if_neg hl]
        · intro tc s' h
          rw [if_neg hl] at h
          cases h
    | nonety => exact ⟨rfl, fun tc s' h => by cases h⟩
    | str sv => exact ⟨rfl, fun tc s' h => by cases h⟩
    | intV n => exact ⟨rfl, fun tc s' h => by cases h⟩
    | ratV q => exact ⟨rfl, fun tc s' h => by cases h⟩
    | qubitV q => exact ⟨rfl, fun tc s' h => by cases h⟩
    | couplingMapV c => exact ⟨rfl, fun tc s' h => by cases h⟩
    | instMapV m => exact ⟨rfl, fun tc s' h => by cases h⟩
    | backendPropsV p => exact ⟨rfl, fun tc s' h => by cases h⟩
    | layoutV l => exact ⟨rfl, fun tc s' h => by cases h⟩
    | durationsV d => exact ⟨rfl, fun tc s' h => by cases h⟩
    | timingV t => exact ⟨rfl, fun tc s' h => by cases h⟩
    | targetV t => exact ⟨rfl, fun tc s' h => by cases h⟩
    | hlsV h2 => exact ⟨rfl, fun tc s' h => by cases h⟩
    | callbackV c => exact ⟨rfl, fun tc s' h => by cases h⟩
    | uspcV d => exact ⟨rfl, fun tc s' h => by cases h⟩
    | listV vs => exact ⟨rfl, fun tc s' h => by cases h⟩

end Qiskit

namespace Qiskit

theorem runSerialGo_eq_runParallel (compile : CompileFn) (K : List String)
    (hopt : ("optimization_level" : String) ∉ K) :
    ∀ (pairs : List (Program × UniqueOut)) (s shared : PyDict),
    (∀ cu ∈ pairs, PyDict.keys cu.2.pass_manager_config = K) →
    agreeOutside K s shared →
    runSerialGo compile s pairs = runParallel compile shared pairs
  | [], _, _, _, _ => rfl
  | cu :: rest, s, shared, hK, hag => by
    have hKcu := hK cu (List.mem_cons_self _ _)
    obtain ⟨hmap, hnew⟩ := combine_args_agree s shared cu.2 K hKcu hopt hag
    cases hc : _combine_args s cu.2 with
    | error e =>
      have hcs : _combine_args shared cu.2 = .error e := by
        rw [hc] at hmap
        cases hcs0 : _combine_args shared cu.2 with
        | error e2 =>
          rw [hcs0] at hmap
          simp only [Except.map] at hmap
          cases hmap
          rfl
        | ok p =>
          rw [hcs0] at hmap
          simp only [Except.map] at hmap
          cases hmap
      simp only [runSerialGo, runParallel, _transpile_circuit, hc, hcs]
    | ok tcs =>
      obtain ⟨tc, s'⟩ := tcs
      have hsh : ∃ t', _combine_args shared cu.2 = .ok (tc, t') := by
        rw [hc] at hmap
        cases hcs0 : _combine_args shared cu.2 with
        | error e2 =>
          rw [hcs0] at hmap
          simp only [Except.map] at hmap
          cases hmap
        | ok p =>
          rw [hcs0] at hmap
          simp only [Except.map, Except.ok.injEq] at hmap
          exact ⟨p.2, by rw [hmap]⟩
      obtain ⟨t', hcs⟩ := hsh
      have hag' : agreeOutside K s' shared := hnew tc s' hc
      have hrest : runSerialGo compile s' rest = runParallel compile shared rest :=
        runSerialGo_eq_runParallel compile K hopt rest s' shared
          (fun cu' h' => hK cu' (List.mem_cons_of_mem _ h')) hag'
      simp only [runSerialGo, runParallel, _transpile_circuit, hc, hcs, hrest]

end Qiskit

namespace Qiskit

theorem keys_applyIdx (d : PyDict) (i : Nat) :
    PyDict.keys (applyIdx d i) = PyDict.keys d := by
  simp [applyIdx, PyDict.keys]

theorem erase_applyIdx : ∀ (d : PyDict) (k : String) (i : Nat),
    PyDict.erase (applyIdx d i) k = applyIdx (PyDict.erase d k) i
  | [], _, _ => rfl
  | (k0, v0) :: rest, k, i => by
    by_cases h0 : k0 = k
    · simp [applyIdx, PyDict.erase, h0]
    · simp only [applyIdx, List.map_cons, PyDict.erase, if_neg h0]
      have := erase_applyIdx rest k i
      simp only [applyIdx] at this
      rw [this]

theorem mem_zipDict : ∀ (d : PyDict) (kw : PyDict), kw ∈ zipDict d → ∃ i, kw = applyIdx d i := by
  intro d kw hkw
  cases d with
  | nil => simp [zipDict] at hkw
  | cons kv rest =>
    simp only [zipDict, List.mem_map] at hkw
    obtain ⟨i, _, hi⟩ := hkw
    exact ⟨i, hi.symm⟩

theorem routeArgs_keys_subset (ud : InstDurArg) (ut : TimingConstraintsArg)
    (ul : InitialLayoutArg) :
    ∀ (entries : List (String × Value)) (uD sD : PyDict) (w : List PyWarning) (k : String),
    k ∈ PyDict.keys (routeArgs ud ut ul entries uD sD w).1 →
    k ∈ PyDict.keys uD ∨ k ∈ entries.map Prod.fst
  | [], uD, sD, w, k => by
    simp only [routeArgs, List.map_nil]
    intro h
    exact Or.inl h
  | (key, value) :: rest, uD, sD, w, k => by
    simp only [routeArgs]
    by_cases hv : value.isList
    · simp only [if_pos hv]
      intro h
      rcases routeArgs_keys_subset ud ut ul rest (PyDict.set uD key value) sD _ k h with hh | hh
      · rcases PyDict.mem_keys_set uD key value k hh with hm | hm
        · exact Or.inl hm
        · exact Or.inr (by simp [hm])
      · exact Or.inr (by simp [hh])
    · simp only [if_neg hv]
      intro h
      rcases routeArgs_keys_subset ud ut ul rest uD (PyDict.set sD key value) _ k h with hh | hh
      · exact Or.inl hh
      · exact Or.inr (by simp [hh])

theorem assemble_unique_pmc_keys (a : TranspileArgs) (lvl : Nat) (p : ParsedPieces) :
    ∃ K, ("optimization_level" : String) ∉ K ∧
      ∀ u ∈ (assembleParsedArgs a lvl p).uniqueArgs,
        PyDict.keys u.pass_manager_config = K := by
  refine ⟨PyDict.keys ((((assembleRouted a lvl p).1.erase "output_name").erase
    "callback").erase "backend_num_qubits"), ?_, ?_⟩
  · intro hmem
    have h1 := PyDict.mem_keys_erase _ "backend_num_qubits" _ hmem
    have h2 := PyDict.mem_keys_erase _ "callback" _ h1
    have h3 := PyDict.mem_keys_erase _ "output_name" _ h2
    have h4 := routeArgs_keys_subset a.instruction_durations a.timing_constraints
      a.initial_layout (assembleEntries a p) (assembleUniqueBase p)
      (assembleSharedBase a lvl p) [] "optimization_level" h3
    rcases h4 with h4 | h4
    · simp [assembleUniqueBase, PyDict.keys] at h4
    · simp [assembleEntries] at h4
  · intro u hu
    simp only [assembleParsedArgs, List.mem_map] at hu
    obtain ⟨kw, hkw, rfl⟩ := hu
    obtain ⟨i, rfl⟩ := mem_zipDict _ kw hkw
    simp only [mkUniqueOut]
    rw [erase_applyIdx, erase_applyIdx, erase_applyIdx, keys_applyIdx]

end Qiskit

namespace Qiskit

theorem parse_ok_assemble (circuits : List Program) (a : TranspileArgs) (lvl : Nat)
    (pr : ParseOut) (h : _parse_transpile_args circuits a lvl = .ok pr) :
    ∃ p, parsePieces circuits a = .ok p ∧ pr = assembleParsedArgs a lvl p := by
  unfold _parse_transpile_args at h
  cases hp : parsePieces circuits a with
  | error e => rw [hp] at h; cases h
  | ok p =>
    rw [hp] at h
    cases h
    exact ⟨p, rfl, rfl⟩

theorem runPaths_eq_of_parse (compile : CompileFn) (circuits : List Program)
    (a : TranspileArgs) (lvl : Nat) (pr : ParseOut)
    (h : _parse_transpile_args circuits a lvl = .ok pr) :
    runSerialGo compile pr.sharedDict (circuits.zip pr.uniqueArgs)
    = runParallel compile pr.sharedDict (circuits.zip pr.uniqueArgs) := by
  obtain ⟨p, hp, rfl⟩ := parse_ok_assemble circuits a lvl pr h
  obtain ⟨K, hopt, hK⟩ := assemble_unique_pmc_keys a lvl p
  refine runSerialGo_eq_runParallel compile K hopt _ _ _ ?_ (fun k _ => rfl)
  intro cu hcu
  obtain ⟨c1, c2⟩ := cu
  exact hK c2 (List.of_mem_zip hcu).2

end Qiskit

namespace Qiskit

/-- C3: For every batch of circuits and fixed configuration (fixed seed),
running the batch through the parallel dispatch path (shared-memory pickle
of shared arguments, per-circuit workers) produces exactly the same output
circuits, in the same order, as running the batch through the serial path:
the transpile model with parallel dispatch enabled equals the model with
it disabled, for every abstracted pass pipeline, configuration and input. -/
theorem c3_parallel_serial_equivalence (compile : CompileFn) (userConfigLevel : Option Nat)
    (a : TranspileArgs) (input : TranspileInput) :
    transpile compile true userConfigLevel a input
    = transpile compile false userConfigLevel a input := by
  simp only [transpile]
  by_cases h1 : (TranspileInput.toList input).isEmpty
  · simp only [if_pos h1]
  · simp only [if_neg h1]
    by_cases h2 : (TranspileInput.toList input).all Program.isSchedule
    · simp only [if_pos h2]
    · simp only [if_neg h2]
      cases hp : _parse_transpile_args (TranspileInput.toList input) a
          (a.optimization_level.getD (userConfigLevel.getD 1)) with
      | error e => simp only [hp]
      | ok pr =>
        simp only [hp]
        cases hc : cmapConfOf pr (TranspileInput.toList input).length with
        | error e => simp only [hc]
        | ok cmaps =>
          simp only [hc]
          cases hchk : _check_circuits_coupling_map (TranspileInput.toList input) cmaps a.backend with
          | error e => simp only [hchk]
          | ok u =>
            simp only [hchk]
            have heq := runPaths_eq_of_parse compile (TranspileInput.toList input) a
              (a.optimization_level.getD (userConfigLevel.getD 1)) pr hp
            rw [heq]
            by_cases hlen : (TranspileInput.toList input).length > 1
            · simp only [hlen, eq_self_iff_true, and_true, true_and, Bool.false_eq_true,
                and_false, if_true, if_false]
            · simp only [hlen, false_and, if_false]

end Qiskit

namespace Qiskit

theorem ok_bind {ε α β : Type} (a : α) (f : α → Except ε β) :
    ((Except.ok a : Except ε α) >>= f) = f a := rfl

theorem error_bind {ε α β : Type} (e : ε) (f : α → Except ε β) :
    ((Except.error e : Except ε α) >>= f) = Except.error e := rfl

theorem mapM_toInt_intE : ∀ l : List Int,
    (l.map RawEntry.intE).mapM RawEntry.toInt = Except.ok l
  | [] => rfl
  | x :: xs => by
    simp only [List.map_cons, List.mapM_cons, mapM_toInt_intE xs, RawEntry.toInt]
    rfl

theorem dedup_length_eq_iff {α : Type} [DecidableEq α] (l : List α) :
    l.dedup.length = l.length ↔ l.Nodup := by
  constructor
  · intro h
    have hs : l.dedup = l := (List.dedup_sublist l).eq_of_length h
    rw [← hs]
    exact l.nodup_dedup
  · intro h
    rw [List.dedup_eq_self.2 h]

theorem parse_initial_layout_single (es : List PylistEntry) (p : Program)
    (h : es.any PylistEntry.isListOrDict = false) :
    _parse_initial_layout (.pylist es) [p]
    = Except.map (fun ol => [optLayoutToEntry ol])
        (_layout_from_raw (.iterS (es.map PylistEntry.toRaw)) p) := by
  simp only [_parse_initial_layout, h, Bool.false_eq_true, if_neg (by simp : ¬False)]
  cases hr : _layout_from_raw (.iterS (es.map PylistEntry.toRaw)) p with
  | error e => simp [List.mapM, List.mapM.loop, hr, Except.map]
  | ok ol => simp [List.mapM, List.mapM.loop, hr, Except.map]

theorem layout_from_raw_int_list (l : List Int) (c : QuantumCircuit) :
    (l.length = c.num_qubits → l.Nodup →
      _layout_from_raw (.iterS (l.map RawEntry.intE)) (.circuit c)
        = .ok (some ⟨l.zip c.qubits⟩))
    ∧ (l.length ≠ c.num_qubits →
        _layout_from_raw (.iterS (l.map RawEntry.intE)) (.circuit c)
          = .error (.transpilerError "initial_layout and circuit had different numbers of qubits"))
    ∧ (l.length = c.num_qubits → ¬l.Nodup →
        _layout_from_raw (.iterS (l.map RawEntry.intE)) (.circuit c)
          = .error (.transpilerError "initial_layout contained duplicate entries")) := by
  cases l with
  | nil =>
    refine ⟨?_, ?_, ?_⟩
    · intro hlen _
      have hn : c.num_qubits = 0 := by simpa using hlen.symm
      simp [_layout_from_raw, Program.num_qubits, hn, ok_bind]
    · intro hlen
      have hn : ¬(0 = c.num_qubits) := by simpa using hlen
      simp only [_layout_from_raw, List.map_nil, List.all_nil, if_pos rfl,
        Program.num_qubits, ok_bind, List.enum_nil, List.filterMap_nil, List.length_nil]
      simp [hn]
    · intro _ hnd
      exact absurd List.nodup_nil hnd
  | cons x xs =>
    have hall : ((x :: xs).map RawEntry.intE).all RawEntry.isNoneOrQubit = false := by
      simp [RawEntry.isNoneOrQubit]
    have hlenm : ((x :: xs).map RawEntry.intE).length = (x :: xs).length :=
      List.length_map _ _
    refine ⟨?_, ?_, ?_⟩
    · intro hlen hnd
      have hndm : ((x :: xs).map RawEntry.intE).Nodup :=
        (List.nodup_map_iff (fun a b h => by cases h; rfl)).mpr hnd
      simp only [_layout_from_raw, hall, Bool.false_eq_true, if_neg (by simp : ¬False),
        Program.num_qubits, Program.qubits, ok_bind]
      rw [if_neg (show ¬(((x :: xs).map RawEntry.intE).length ≠ c.num_qubits) by
        rw [hlenm, hlen]; simp)]
      rw [if_neg (show ¬(((x :: xs).map RawEntry.intE).length
          ≠ ((x :: xs).map RawEntry.intE).dedup.length) by
        rw [(dedup_length_eq_iff _).mpr hndm]; simp)]
      rw [mapM_toInt_intE]
      rfl
    · intro hlen
      simp only [_layout_from_raw, hall, Bool.false_eq_true, if_neg (by simp : ¬False),
        Program.num_qubits, Program.qubits, ok_bind]
      rw [if_pos (show ((x :: xs).map RawEntry.intE).length ≠ c.num_qubits by
        rw [hlenm]; exact hlen)]
    · intro hlen hnd
      have hndm : ¬((x :: xs).map RawEntry.intE).Nodup := by
        intro hh
        exact hnd (List.Nodup.of_map _ hh)
      simp only [_layout_from_raw, hall, Bool.false_eq_true, if_neg (by simp : ¬False),
        Program.num_qubits, Program.qubits, ok_bind]
      rw [if_neg (show ¬(((x :: xs).map RawEntry.intE).length ≠ c.num_qubits) by
        rw [hlenm, hlen]; simp)]
      rw [if_pos (show (((x :: xs).map RawEntry.intE).length
          ≠ ((x :: xs).map RawEntry.intE).dedup.length) by
        intro hh
        exact hndm ((dedup_length_eq_iff _).mp hh.symm))]

/-- C5: for an initial_layout given as a list of physical qubit indices
for an n-virtual-qubit circuit, if the list has length n and no
duplicates, the resulting Layout assigns virtual qubit i to physical index
list[i] (its physical-to-virtual pairs are the list zipped with the
circuit's qubits in order); a list whose length differs from n, or one
with a duplicate entry, raises a TranspilerError. -/
theorem c5_initial_layout_list (l : List Int) (c : QuantumCircuit) :
    (l.length = c.num_qubits → l.Nodup →
      _parse_initial_layout (.pylist (l.map PylistEntry.intE)) [.circuit c]
        = .ok [.layP ⟨l.zip c.qubits⟩])
    ∧ (l.length ≠ c.num_qubits →
        ∃ msg, _parse_initial_layout (.pylist (l.map PylistEntry.intE)) [.circuit c]
          = .error (.transpilerError msg))
    ∧ (¬l.Nodup →
        ∃ msg, _parse_initial_layout (.pylist (l.map PylistEntry.intE)) [.circuit c]
          = .error (.transpilerError msg)) := by
  have hany : (l.map PylistEntry.intE).any PylistEntry.isListOrDict = false := by
    induction l with
    | nil => rfl
    | cons y ys ih => simp [PylistEntry.isListOrDict]
  have hsingle := parse_initial_layout_single (l.map PylistEntry.intE) (.circuit c) hany
  have htoraw : (l.map PylistEntry.intE).map PylistEntry.toRaw = l.map RawEntry.intE := by
    rw [List.map_map]
    rfl
  rw [htoraw] at hsingle
  obtain ⟨h1, h2, h3⟩ := layout_from_raw_int_list l c
  refine ⟨?_, ?_, ?_⟩
  · intro hl hn
    rw [hsingle, h1 hl hn]
    rfl
  · intro hl
    refine ⟨"initial_layout and circuit had different numbers of qubits", ?_⟩
    rw [hsingle, h2 hl]
    rfl
  · intro hn
    by_cases hl : l.length = c.num_qubits
    · refine ⟨"initial_layout contained duplicate entries", ?_⟩
      rw [hsingle, h3 hl hn]
      rfl
    · refine ⟨"initial_layout and circuit had different numbers of qubits", ?_⟩
      rw [hsingle, h2 hl]
      rfl


/-- Witness for C5 at the spec's example inputs: [0,2,1] on a 3-qubit
circuit yields the expected layout, and [0,0,1] raises. -/
theorem c5_initial_layout_list_witness :
    _parse_initial_layout (.pylist ([0, 2, 1].map PylistEntry.intE)) [.circuit circuit3]
      = .ok [.layP ⟨[(0, ⟨"q", 0⟩), (2, ⟨"q", 1⟩), (1, ⟨"q", 2⟩)]⟩]
    ∧ ∃ msg, _parse_initial_layout (.pylist ([0, 0, 1].map PylistEntry.intE)) [.circuit circuit3]
      = .error (.transpilerError msg) :=
  ⟨(c5_initial_layout_list [0, 2, 1] circuit3).1 (by decide) (by decide),
   (c5_initial_layout_list [0, 0, 1] circuit3).2.2 (by decide)⟩

end Qiskit

namespace Qiskit

/-- C7: approximation_degree values outside the closed interval [0, 1]
raise a TranspilerError; values inside the interval and None are accepted
unchanged (in a legacy per-circuit list, entries are checked the same way,
with None entries skipped). -/
theorem c7_approximation_degree_range :
    (∀ q : Rat, 0 ≤ q → q ≤ 1 → _parse_approximation_degree (.one q) = .ok (.one q))
    ∧ (∀ q : Rat, q < 0 ∨ 1 < q →
        _parse_approximation_degree (.one q)
          = .error (.transpilerError "Approximation degree must be in [0.0, 1.0]"))
    ∧ _parse_approximation_degree .noneA = .ok .noneA
    ∧ (∀ es : List (Option Rat),
        (∀ x : Rat, some x ∈ es → 0 ≤ x ∧ x ≤ 1) →
        _parse_approximation_degree (.many es) = .ok (.many es))
    ∧ (∀ (es : List (Option Rat)) (q : Rat), some q ∈ es → q < 0 ∨ 1 < q →
        _parse_approximation_degree (.many es)
          = .error (.transpilerError "Approximation degree must be in [0.0, 1.0]")) := by
  refine ⟨?_, ?_, rfl, ?_, ?_⟩
  · intro q h0 h1
    simp only [_parse_approximation_degree]
    rw [if_neg (by push_neg; exact ⟨h0, h1⟩)]
  · intro q h
    simp only [_parse_approximation_degree]
    rw [if_pos h]
  · intro es h
    have hall : es.all (fun d =>
        match d with
        | some q => if q = 0 then true else (if 0 ≤ q ∧ q ≤ 1 then true else false)
        | none => true) = true := by
      rw [List.all_eq_true]
      intro x hx
      cases x with
      | none => rfl
      | some q =>
        by_cases hq : q = 0
        · simp [hq]
        · obtain ⟨ha, hb⟩ := h q hx
          simp [hq, ha, hb]
    simp only [_parse_approximation_degree, hall]
    rw [if_pos trivial]
  · intro es q hmem h
    have hq0 : ¬(q = 0) := by
      rcases h with h | h
      · exact fun hh => absurd (hh ▸ h) (by norm_num)
      · exact fun hh => absurd (hh ▸ h) (by norm_num)
    have hnr : ¬(0 ≤ q ∧ q ≤ 1) := by
      rcases h with h | h
      · exact fun hh => absurd h (not_lt.mpr hh.1)
      · exact fun hh => absurd h (not_lt.mpr hh.2)
    have hall : es.all (fun d =>
        match d with
        | some q => if q = 0 then true else (if 0 ≤ q ∧ q ≤ 1 then true else false)
        | none => true) = false := by
      rw [List.all_eq_false]
      refine ⟨some q, hmem, ?_⟩
      simp [hq0, hnr]
    simp only [_parse_approximation_degree, hall]
    rw [if_neg (by simp : ¬(false = true))]

/-- Witness for C7 at concrete inputs. -/
theorem c7_approximation_degree_range_witness :
    _parse_approximation_degree (.one (1/2)) = .ok (.one (1/2))
    ∧ _parse_approximation_degree (.one 2)
        = .error (.transpilerError "Approximation degree must be in [0.0, 1.0]")
    ∧ _parse_approximation_degree (.many [some (1/2), none, some 0])
        = .ok (.many [some (1/2), none, some 0])
    ∧ _parse_approximation_degree (.many [some (1/2), some (-1)])
        = .error (.transpilerError "Approximation degree must be in [0.0, 1.0]") :=
  ⟨c7_approximation_degree_range.1 (1/2) (by norm_num) (by norm_num),
   c7_approximation_degree_range.2.1 2 (Or.inr (by norm_num)),
   c7_approximation_degree_range.2.2.2.1 [some (1/2), none, some 0] (by
     intro x hx
     simp only [List.mem_cons, List.not_mem_nil, or_false] at hx
     rcases hx with hx | hx | hx
     · cases hx; constructor <;> norm_num
     · cases hx
     · cases hx; constructor <;> norm_num),
   c7_approximation_degree_range.2.2.2.2 [some (1/2), some (-1)] (-1) (by simp)
     (Or.inl (by norm_num))⟩

end Qiskit

namespace Qiskit

theorem pure_eq_ok {ε α : Type} (a : α) : (pure a : Except ε α) = Except.ok a := rfl

theorem mapM_ok_forall {ε α β : Type} (f : α → Except ε β) (P : β → Prop)
    (hf : ∀ a b, f a = .ok b → P b) :
    ∀ (l : List α) (r : List β), l.mapM f = .ok r → ∀ y ∈ r, P y
  | [], r, h => by
    simp only [List.mapM_nil] at h
    cases h
    simp
  | a :: l, r, h => by
    rw [List.mapM_cons] at h
    cases hfa : f a with
    | error e =>
      rw [hfa, error_bind] at h
      cases h
    | ok b =>
      rw [hfa, ok_bind] at h
      cases hl : l.mapM f with
      | error e =>
        rw [hl, error_bind] at h
        cases h
      | ok ys =>
        rw [hl, ok_bind, pure_eq_ok] at h
        cases h
        intro y hy
        rcases List.mem_cons.mp hy with hy | hy
        · exact hy ▸ hf a b hfa
        · exact mapM_ok_forall f P hf l ys hl y hy

theorem circDurations_isSome (inst_durations : InstDurArg) (dt : Option Rat)
    (bd : InstructionDurations) (circ : Program) (y : Option InstructionDurations)
    (h : circDurations inst_durations dt bd circ = .ok y) : y.isSome := by
  unfold circDurations at h
  cases hc : circ.calibrations with
  | error e =>
    rw [hc, error_bind] at h
    cases h
  | ok cals =>
    rw [hc, ok_bind] at h
    by_cases ht : inst_durations.truthy
    · simp only [ht, eq_self_iff_true, if_true, if_pos, Bool.not_true, Bool.false_eq_true,
        if_false] at h
      cases hu : InstructionDurations.updateArg
          (if (!cals.isEmpty) = true then
            InstructionDurations.updateTable InstructionDurations.empty
              (cals.flatMap fun gc =>
                List.map (fun ce =>
                  DurationEntry.mk gc.1 (some ce.qubits) (ce.scheduleDuration : Rat) "dt") gc.2)
              InstructionDurations.empty.dt
          else InstructionDurations.empty)
          inst_durations (ratOr dt inst_durations.getDt) with
      | error e => rw [hu, error_bind] at h; cases h
      | ok b =>
        rw [hu, ok_bind, pure_eq_ok] at h
        cases h
        rfl
    · simp only [ht, Bool.not_false, Bool.false_eq_true, if_false, if_true,
        eq_self_iff_true] at h
      rw [pure_eq_ok, ok_bind, pure_eq_ok] at h
      cases h
      rfl

theorem scheduling_durations_check_dead (backend : Option Backend)
    (inst_durations : InstDurArg) (dt : Option Rat) (circuits : List Program)
    (r : List (Option InstructionDurations))
    (h : _parse_instruction_durations backend inst_durations dt circuits = .ok r) :
    ∀ y ∈ r, y.isSome :=
  mapM_ok_forall _ _ (fun circ y hy => circDurations_isSome _ _ _ circ y hy) circuits r h



/-- C2 (code bug): requesting scheduling_method with no resolvable
instruction-duration source (no durations, no backend, no target) does NOT
fail with a TranspilerError: the line-572 check compares the parsed
duration tables against None, but `_parse_instruction_durations` always
returns per-circuit InstructionDurations objects (see
`scheduling_durations_check_dead`), so transpile only emits the
UserWarning and proceeds to compile. -/
theorem c2_scheduling_without_durations_proceeds :
    transpile idCompile false none
      { TranspileArgs.defaults with scheduling_method := .one "alap" }
      (.single (.circuit circuit1))
    = .ok (.single (.circuit circuit1),
        [.userWarning "When scheduling circuits without backend, instruction_durations should be usually provided."]) := by
  rfl

end Qiskit

namespace Qiskit

/-- C10 counterexample: for the empty batch every supplied element is
vacuously a pulse Schedule, yet transpile returns the empty list with NO
UserWarning (the empty-input early return precedes the schedule check), so
the claim as stated fails at this input. -/
theorem c10_empty_counterexample :
    transpile idCompile false none TranspileArgs.defaults (.listIn []) = .ok (.listOut [], []) := by
  rfl

/-- C10 (amended): for every input supplying at least one element in which
every element is a pulse Schedule, transpile emits the UserWarning and
returns the input unchanged, with the same single-versus-list shape, for
every pass pipeline and configuration (so no pass manager is built and no
pass runs); an empty list is returned unchanged without a warning. -/
theorem c10_schedule_passthrough (compile : CompileFn) (useParallel : Bool)
    (ucfg : Option Nat) (a : TranspileArgs) :
    (∀ (s : Schedule) (ss : List Schedule),
      transpile compile useParallel ucfg a (.listIn ((s :: ss).map Program.schedule))
        = .ok (.listOut ((s :: ss).map Program.schedule),
            [.userWarning "Transpiling schedules is not supported yet."]))
    ∧ (∀ s : Schedule,
      transpile compile useParallel ucfg a (.single (.schedule s))
        = .ok (.single (.schedule s),
            [.userWarning "Transpiling schedules is not supported yet."])) := by
  constructor
  · intro s ss
    have hall : ((s :: ss).map Program.schedule).all Program.isSchedule = true := by
      rw [List.all_eq_true]
      intro x hx
      obtain ⟨y, _, rfl⟩ := List.mem_map.mp hx
      rfl
    simp only [transpile, TranspileInput.toList, TranspileInput.isList]
    rw [if_neg (by simp), if_pos hall]
    rfl
  · intro s
    rfl

end Qiskit

namespace Qiskit

theorem parsePieces_ok_inv (circuits : List Program) (a : TranspileArgs) (p : ParsedPieces)
    (h : parsePieces circuits a = .ok p) :
    (∃ x, _parse_backend_num_qubits a.backend circuits.length = .ok x)
    ∧ (∃ x, _parse_instruction_durations a.backend
        (applyTargetDefaults a).instruction_durations (applyTargetDefaults a).dt circuits
        = .ok x) := by
  simp only [parsePieces] at h
  cases h1 : _parse_initial_layout a.initial_layout circuits with
  | error e => rw [h1, error_bind] at h; cases h
  | ok v1 =>
  rw [h1, ok_bind] at h
  cases h2 : _parse_inst_map (applyTargetDefaults a).inst_map a.backend with
  | error e => rw [h2, error_bind] at h; cases h
  | ok v2 =>
  rw [h2, ok_bind] at h
  cases h3 : _parse_coupling_map (applyTargetDefaults a).coupling_map a.backend with
  | error e => rw [h3, error_bind] at h; cases h
  | ok v3 =>
  rw [h3, ok_bind] at h
  cases h4 : _parse_backend_properties (applyTargetDefaults a).backend_properties a.backend with
  | error e => rw [h4, error_bind] at h; cases h
  | ok v4 =>
  rw [h4, ok_bind] at h
  cases h5 : _parse_backend_num_qubits a.backend circuits.length with
  | error e => rw [h5, error_bind] at h; cases h
  | ok v5 =>
  rw [h5, ok_bind] at h
  cases h6 : _parse_approximation_degree a.approximation_degree with
  | error e => rw [h6, error_bind] at h; cases h
  | ok v6 =>
  rw [h6, ok_bind] at h
  cases h7 : _parse_output_name a.output_name circuits with
  | error e => rw [h7, error_bind] at h; cases h
  | ok v7 =>
  rw [h7, ok_bind] at h
  cases h8 : _parse_instruction_durations a.backend
      (applyTargetDefaults a).instruction_durations (applyTargetDefaults a).dt circuits with
  | error e => rw [h8, error_bind] at h; cases h
  | ok v8 =>
  exact ⟨⟨v5, rfl⟩, ⟨v8, rfl⟩⟩

theorem mapM_ok_forall_input {ε α β : Type} (f : α → Except ε β) :
    ∀ (l : List α) (r : List β), l.mapM f = .ok r → ∀ x ∈ l, ∃ y, f x = .ok y
  | [], r, _, x, hx => by simp at hx
  | a :: l, r, h, x, hx => by
    rw [List.mapM_cons] at h
    cases hfa : f a with
    | error e =>
      rw [hfa, error_bind] at h
      cases h
    | ok b =>
      rw [hfa, ok_bind] at h
      cases hl : l.mapM f with
      | error e =>
        rw [hl, error_bind] at h
        cases h
      | ok ys =>
        rcases List.mem_cons.mp hx with hx | hx
        · exact ⟨b, hx ▸ hfa⟩
        · exact mapM_ok_forall_input f l ys hl x hx

theorem notSchedule_of_parse (circuits : List Program) (a : TranspileArgs) (p : ParsedPieces)
    (h : parsePieces circuits a = .ok p) :
    ∀ q ∈ circuits, q.isSchedule = false := by
  obtain ⟨-, ⟨durs, hdurs⟩⟩ := parsePieces_ok_inv circuits a p h
  intro q hq
  obtain ⟨y, hy⟩ := mapM_ok_forall_input _ circuits durs hdurs q hq
  unfold circDurations at hy
  cases q with
  | circuit c => rfl
  | schedule s =>
    rw [show (Program.schedule s).calibrations = Except.error (.attributeError "Schedule object has no attribute calibrations") from rfl, error_bind] at hy
    cases hy

theorem backend_config_of_parse (circuits : List Program) (a : TranspileArgs) (p : ParsedPieces)
    (h : parsePieces circuits a = .ok p) :
    ∀ b, a.backend = some b → b.version ≤ 1 → b.configuration.isSome := by
  obtain ⟨⟨bnq, hbnq⟩, -⟩ := parsePieces_ok_inv circuits a p h
  intro b hb hv
  rw [hb] at hbnq
  unfold _parse_backend_num_qubits at hbnq
  dsimp only at hbnq
  rw [if_pos hv] at hbnq
  cases hcfg : b.configuration with
  | none => rw [hcfg] at hbnq; cases hbnq
  | some cfg => rfl

theorem backendMaxQubits_ok (backend : Option Backend)
    (hb : ∀ b, backend = some b → b.version ≤ 1 → b.configuration.isSome) :
    ∃ om, backendMaxQubits backend = .ok om := by
  cases hbk : backend with
  | none => exact ⟨none, rfl⟩
  | some b =>
    unfold backendMaxQubits
    dsimp only
    by_cases hv : b.version ≤ 1
    · have hcs := hb b hbk hv
      rw [if_pos hv]
      cases hcfg : b.configuration with
      | none => rw [hcfg] at hcs; cases hcs
      | some cfg => exact ⟨_, rfl⟩
    · rw [if_neg hv]
      exact ⟨some b.num_qubits, rfl⟩

theorem maxQubitsOf_ok (v : Value) (backend : Option Backend)
    (hb : ∀ b, backend = some b → b.version ≤ 1 → b.configuration.isSome) :
    ∃ om, maxQubitsOf v backend = .ok om := by
  have hbm := backendMaxQubits_ok backend hb
  cases v
  case couplingMapV c => exact ⟨some c.size, rfl⟩
  all_goals exact hbm


theorem checkCouplingGo_errors (backend : Option Backend)
    (hb : ∀ b, backend = some b → b.version ≤ 1 → b.configuration.isSome) :
    ∀ (pairs : List (Program × Value)),
    (∀ pv ∈ pairs, pv.1.isSchedule = false) →
    (∃ pv ∈ pairs, ∃ qs m, pv.1.qubits = .ok qs ∧ maxQubitsOf pv.2 backend = .ok (some m)
      ∧ qs.length > m) →
    ∃ msg, checkCouplingGo pairs backend = .error (.transpilerError msg)
  | [], _, hex => by simp at hex
  | (q, v) :: rest, hsch, hex => by
    have hq : q.isSchedule = false := hsch (q, v) (List.mem_cons_self _ _)
    obtain ⟨c, rfl⟩ : ∃ c, q = .circuit c := by
      cases q with
      | circuit c => exact ⟨c, rfl⟩
      | schedule s => simp [Program.isSchedule] at hq
    obtain ⟨om, hom⟩ := maxQubitsOf_ok v backend hb
    have hrec : (∃ pv ∈ rest, ∃ qs m, pv.1.qubits = Except.ok qs
        ∧ maxQubitsOf pv.2 backend = Except.ok (some m) ∧ qs.length > m) →
        ∃ msg, checkCouplingGo rest backend = .error (.transpilerError msg) :=
      checkCouplingGo_errors backend hb rest
        (fun pv hpv => hsch pv (List.mem_cons_of_mem _ hpv))
    cases om with
    | some m =>
      by_cases hgt : c.qubits.length > m
      · refine ⟨"Number of qubits in circuit is greater than maximum in the coupling_map", ?_⟩
        simp only [checkCouplingGo, Program.qubits, hom]
        rw [if_pos hgt]
      · obtain ⟨pv, hpv, qs, m2, h1, h2, h3⟩ := hex
        rcases List.mem_cons.mp hpv with hhead | htail
        · subst hhead
          simp only [Program.qubits, Except.ok.injEq] at h1
          rw [hom] at h2
          simp only [Except.ok.injEq, Option.some.injEq] at h2
          subst h1
          subst h2
          exact absurd h3 hgt
        · obtain ⟨msg, hmsg⟩ := hrec ⟨pv, htail, qs, m2, h1, h2, h3⟩
          refine ⟨msg, ?_⟩
          simp only [checkCouplingGo, Program.qubits, hom]
          rw [if_neg hgt]
          exact hmsg
    | none =>
      obtain ⟨pv, hpv, qs, m2, h1, h2, h3⟩ := hex
      rcases List.mem_cons.mp hpv with hhead | htail
      · subst hhead
        rw [hom] at h2
        cases h2
      · obtain ⟨msg, hmsg⟩ := hrec ⟨pv, htail, qs, m2, h1, h2, h3⟩
        refine ⟨msg, ?_⟩
        simp only [checkCouplingGo, Program.qubits, hom]
        exact hmsg


/-- C1 (amended): whenever argument resolution succeeds and some input
circuit's qubit count exceeds its resolved qubit budget — the resolved
coupling map's size, or otherwise the backend's reported qubit count
(which for a version <= 1 backend applies only when it is not a
simulator) — transpile fails with a TranspilerError whose value is
independent of the pass pipeline and of the dispatch mode, i.e. before any
pass executes. -/
theorem c1_width_precheck (ucfg : Option Nat) (a : TranspileArgs) (input : TranspileInput)
    (pr : ParseOut) (cmaps : List Value) (q : Program) (v : Value) (qs : List Qubit) (m : Nat)
    (hparse : _parse_transpile_args input.toList a
      (a.optimization_level.getD (ucfg.getD 1)) = .ok pr)
    (hcm : cmapConfOf pr input.toList.length = .ok cmaps)
    (hmem : (q, v) ∈ input.toList.zip cmaps)
    (hqs : q.qubits = .ok qs)
    (hmax : maxQubitsOf v a.backend = .ok (some m))
    (hgt : qs.length > m) :
    ∃ e, e.isTranspilerError = true ∧
      ∀ compile useParallel, transpile compile useParallel ucfg a input = .error e := by
  obtain ⟨p, hp, rfl⟩ := parse_ok_assemble _ _ _ _ hparse
  have hsch := notSchedule_of_parse _ _ _ hp
  have hbcfg := backend_config_of_parse _ _ _ hp
  have hchk : ∃ msg, _check_circuits_coupling_map input.toList cmaps a.backend
      = .error (.transpilerError msg) := by
    refine checkCouplingGo_errors a.backend hbcfg (input.toList.zip cmaps) ?_
      ⟨(q, v), hmem, qs, m, hqs, hmax, hgt⟩
    intro pv hpv
    obtain ⟨p1, p2⟩ := pv
    exact hsch p1 (List.of_mem_zip hpv).1
  obtain ⟨msg, hmsg⟩ := hchk
  refine ⟨.transpilerError msg, rfl, ?_⟩
  intro compile useParallel
  have hqmem := (List.of_mem_zip hmem).1
  have hne : ¬(input.toList.isEmpty = true) := by
    intro hempty
    rw [List.isEmpty_iff] at hempty
    rw [hempty] at hqmem
    simp at hqmem
  have hallsched : ¬(input.toList.all Program.isSchedule = true) := by
    intro hall
    have h1 := List.all_eq_true.mp hall q hqmem
    rw [hsch q hqmem] at h1
    cases h1
  simp only [transpile]
  rw [if_neg hne, if_neg hallsched]
  simp only [hparse, hcm, hmsg]



/-- Witness for C1: a 3-qubit circuit against an explicit 2-qubit coupling
map. -/
theorem c1_width_precheck_witness :
    ∃ e, PyError.isTranspilerError e = true ∧
      transpile idCompile false none c1WitnessArgs (.single (.circuit circuit3)) = .error e := by
  obtain ⟨e, he, hall⟩ := c1_width_precheck none c1WitnessArgs (.single (.circuit circuit3))
    _ _ (.circuit circuit3) _ circuit3.qubits 2 rfl rfl (List.mem_singleton.mpr rfl)
    rfl rfl (by decide)
  exact ⟨e, he, hall idCompile false⟩



/-- C1 counterexample: for a version-1 backend flagged as a simulator
reporting n_qubits = 1 and a 2-qubit circuit with no coupling map,
transpile does NOT raise: the width precheck skips simulator backends
(transpiler.py line 399), so the claim as stated fails at this input. -/
theorem c1_simulator_counterexample :
    circuit2q.num_qubits = 2
    ∧ simulatorBackend1Q.configuration.map BackendConfiguration.n_qubits = some 1
    ∧ transpile idCompile false none
        { TranspileArgs.defaults with backend := some simulatorBackend1Q }
        (.single (.circuit circuit2q))
      = .ok (.single (.circuit circuit2q), []) :=
  ⟨rfl, rfl, rfl⟩

end Qiskit

namespace Qiskit



/-- C9, counterexample: broadcasting `timing_constraints` as a per-circuit
list of dicts does fail: with no backend, `TimingConstraints(**user_timing_constraints)`
(line 897) receives the list and raises a TypeError before any deprecation
warning for that key is emitted, contradicting the claim that every legacy
broadcast list warns, does not fail on that account and continues. -/
theorem c9_timing_list_counterexample :
    transpile idCompile false none
      { TranspileArgs.defaults with
        timing_constraints := .pylist [TimingDict.empty, TimingDict.empty] }
      (.listIn [.circuit circuit1, .circuit circuit3])
    = .error (.typeError "argument after ** must be a mapping, not list") := by
  rfl

/-- Inverts a successful `Except.map`. -/
theorem except_map_ok_inv {α β : Type} {e : Except PyError α} {f : α → β} {y : β}
    (h : e.map f = .ok y) : ∃ p, e = .ok p ∧ f p = y := by
  cases e with
  | error e0 => cases h
  | ok p => exact ⟨p, rfl, Except.ok.inj h⟩

/-- `_parse_transpile_args` is the assembly mapped over the fallible
prefix. -/
theorem parse_eq_map (circuits : List Program) (a : TranspileArgs) (lvl : Nat) :
    _parse_transpile_args circuits a lvl
      = (parsePieces circuits a).map (assembleParsedArgs a lvl) := by
  cases h : parsePieces circuits a with
  | error e => simp [_parse_transpile_args, h, Except.map]
  | ok p => simp [_parse_transpile_args, h, Except.map]

/-- Lookup in the i-th zipped dict is the i-th element of the value. -/
theorem get?_applyIdx : ∀ (d : PyDict) (k : String) (i : Nat),
    (applyIdx d i).get? k = (d.get? k).map (fun v => v.atIdx i)
  | [], _, _ => rfl
  | (k0, v) :: tl, k, i => by
    simp only [applyIdx, List.map_cons, PyDict.get?]
    by_cases hk : k0 = k
    · simp [hk]
    · simpa [hk, applyIdx] using get?_applyIdx tl k i

/-- `_zip_dict` of a non-empty dict: one dict per index below the shortest
value length. -/
theorem zipDict_eq_of_ne_nil (d : PyDict) (h : d ≠ []) :
    zipDict d
      = (List.range (((d.map (fun kv => kv.2.listLen)).min?).getD 0)).map (applyIdx d) := by
  cases d with
  | nil => exact absurd rfl h
  | cons kv tl => rfl

/-- The per-circuit bundles of the assembly are the zipped unique dicts. -/
theorem assembleParsedArgs_uniqueArgs (a : TranspileArgs) (lvl : Nat) (p : ParsedPieces) :
    (assembleParsedArgs a lvl p).uniqueArgs
      = (zipDict (assembleRouted a lvl p).1).map mkUniqueOut := rfl

set_option maxHeartbeats 1200000 in
/-- C9 (amended): for the per-circuit-broadcastable argument slots
(backend_properties, approximation_degree, the four stage methods,
seed_transpiler, unitary_synthesis_method, unitary_synthesis_plugin_config,
hls_config), supplying per-circuit lists for two circuits makes argument
resolution succeed with exactly one DeprecationWarning per broadcast key
and one argument bundle per circuit carrying the positional value of its
circuit (shown for seed_transpiler), and a run of transpile on such a
broadcast call completes, returning those DeprecationWarnings (after the
no-durations scheduling note). -/
theorem c9_broadcast_deprecation (c1V c2V : QuantumCircuit)
    (lm1 lm2 rm1 rm2 tm1 tm2 sm1 sm2 um1 um2 : String)
    (s1 s2 u1 u2 : Nat) (h1 h2 : HLSConfig) (bp1 bp2 : BackendProperties) :
    (_parse_transpile_args [.circuit c1V, .circuit c2V]
        (c9BroadcastArgs lm1 lm2 rm1 rm2 tm1 tm2 sm1 sm2 um1 um2
          s1 s2 u1 u2 h1 h2 bp1 bp2) 1).map ParseOut.warnings
      = .ok (c9WarnKeys.map broadcastWarning) ∧
    (_parse_transpile_args [.circuit c1V, .circuit c2V]
        (c9BroadcastArgs lm1 lm2 rm1 rm2 tm1 tm2 sm1 sm2 um1 um2
          s1 s2 u1 u2 h1 h2 bp1 bp2) 1).map (fun pr => pr.uniqueArgs.length)
      = .ok 2 ∧
    (_parse_transpile_args [.circuit c1V, .circuit c2V]
        (c9BroadcastArgs lm1 lm2 rm1 rm2 tm1 tm2 sm1 sm2 um1 um2
          s1 s2 u1 u2 h1 h2 bp1 bp2) 1).map (fun pr =>
        pr.uniqueArgs.map (fun u => u.pass_manager_config.get? "seed_transpiler"))
      = .ok [some (.natV s1), some (.natV s2)] ∧
    ∀ compile : CompileFn,
      (transpile compile false none
          (c9BroadcastArgs "lm1" "lm2" "rm1" "rm2" "tm1" "tm2" "alap" "asap"
            "um1" "um2" 11 22 33 44 ⟨55⟩ ⟨66⟩ (.native 7) (.native 8))
          (.listIn [.circuit circuit1, .circuit circuit3])).map Prod.snd
        = .ok (.userWarning "When scheduling circuits without backend, instruction_durations should be usually provided."
            :: c9WarnKeys.map broadcastWarning) := by
  have hbig : (parsePieces [.circuit c1V, .circuit c2V]
        (c9BroadcastArgs lm1 lm2 rm1 rm2 tm1 tm2 sm1 sm2 um1 um2
          s1 s2 u1 u2 h1 h2 bp1 bp2)).map (fun p =>
        ((assembleParsedArgs (c9BroadcastArgs lm1 lm2 rm1 rm2 tm1 tm2 sm1 sm2 um1 um2
            s1 s2 u1 u2 h1 h2 bp1 bp2) 1 p).warnings,
         (assembleRouted (c9BroadcastArgs lm1 lm2 rm1 rm2 tm1 tm2 sm1 sm2 um1 um2
            s1 s2 u1 u2 h1 h2 bp1 bp2) 1 p).1.map (fun kv => kv.2.listLen),
         (assembleRouted (c9BroadcastArgs lm1 lm2 rm1 rm2 tm1 tm2 sm1 sm2 um1 um2
            s1 s2 u1 u2 h1 h2 bp1 bp2) 1 p).1.get? "seed_transpiler"))
      = .ok (c9WarnKeys.map broadcastWarning, List.replicate 16 2,
             some (.listV [.natV s1, .natV s2])) := rfl
  obtain ⟨p, hp, hfacts⟩ := except_map_ok_inv hbig
  simp only [Prod.mk.injEq] at hfacts
  obtain ⟨hw, hL, hseed⟩ := hfacts
  have hparse : _parse_transpile_args [.circuit c1V, .circuit c2V]
      (c9BroadcastArgs lm1 lm2 rm1 rm2 tm1 tm2 sm1 sm2 um1 um2
        s1 s2 u1 u2 h1 h2 bp1 bp2) 1
      = .ok (assembleParsedArgs (c9BroadcastArgs lm1 lm2 rm1 rm2 tm1 tm2 sm1 sm2 um1 um2
        s1 s2 u1 u2 h1 h2 bp1 bp2) 1 p) := by
    rw [parse_eq_map, hp]; rfl
  have hne : (assembleRouted (c9BroadcastArgs lm1 lm2 rm1 rm2 tm1 tm2 sm1 sm2 um1 um2
      s1 s2 u1 u2 h1 h2 bp1 bp2) 1 p).1 ≠ [] := by
    intro hnil
    rw [hnil] at hL
    simp at hL
  have hzip : zipDict (assembleRouted (c9BroadcastArgs lm1 lm2 rm1 rm2 tm1 tm2 sm1 sm2 um1 um2
      s1 s2 u1 u2 h1 h2 bp1 bp2) 1 p).1
      = (List.range 2).map (applyIdx (assembleRouted (c9BroadcastArgs lm1 lm2 rm1 rm2 tm1 tm2
          sm1 sm2 um1 um2 s1 s2 u1 u2 h1 h2 bp1 bp2) 1 p).1) := by
    rw [zipDict_eq_of_ne_nil _ hne, hL]
    rfl
  have e1 : ∀ dd : PyDict,
      (dd.erase "backend_num_qubits").get? "seed_transpiler" = dd.get? "seed_transpiler" :=
    fun dd => PyDict.get?_erase_ne dd "backend_num_qubits" "seed_transpiler" (by decide)
  have e2 : ∀ dd : PyDict,
      (dd.erase "callback").get? "seed_transpiler" = dd.get? "seed_transpiler" :=
    fun dd => PyDict.get?_erase_ne dd "callback" "seed_transpiler" (by decide)
  have e3 : ∀ dd : PyDict,
      (dd.erase "output_name").get? "seed_transpiler" = dd.get? "seed_transpiler" :=
    fun dd => PyDict.get?_erase_ne dd "output_name" "seed_transpiler" (by decide)
  refine ⟨?_, ?_, ?_, ?_⟩
  · rw [hparse]
    simp only [Except.map]
    rw [hw]
  · rw [hparse]
    simp only [Except.map]
    rw [assembleParsedArgs_uniqueArgs, hzip]
    simp [List.length_map, List.length_range]
  · rw [hparse]
    simp only [Except.map]
    rw [assembleParsedArgs_uniqueArgs, hzip]
    have h01 : List.range 2 = [0, 1] := rfl
    rw [h01]
    simp only [List.map_cons, List.map_nil]
    dsimp only [mkUniqueOut]
    rw [e1, e1, e2, e2, e3, e3, get?_applyIdx, get?_applyIdx, hseed]
    rfl
  · intro compile
    rfl

end Qiskit

namespace Qiskit

/-- A successful parallel run yields one output per pair. -/
theorem runParallel_ok_length (compile : CompileFn) (s : PyDict)
    (l : List (Program × UniqueOut)) :
    ∀ outs, runParallel compile s l = .ok outs → outs.length = l.length := by
  induction l with
  | nil =>
    intro outs h
    cases h
    rfl
  | cons cu rest ih =>
    intro outs h
    unfold runParallel at h
    cases h1 : _transpile_circuit compile s cu with
    | error e => rw [h1] at h; cases h
    | ok o =>
      rw [h1] at h
      cases h2 : runParallel compile s rest with
      | error e => rw [h2] at h; cases h
      | ok os =>
        rw [h2] at h
        cases h
        simp [ih os h2]

/-- A successful parallel run compiles the i-th pair to the i-th output. -/
theorem runParallel_ok_get (compile : CompileFn) (s : PyDict)
    (l : List (Program × UniqueOut)) :
    ∀ outs, runParallel compile s l = .ok outs →
      ∀ i (hi : i < l.length) (ho : i < outs.length),
        _transpile_circuit compile s (l.get ⟨i, hi⟩) = .ok (outs.get ⟨i, ho⟩) := by
  induction l with
  | nil =>
    intro outs h i hi ho
    exact absurd hi (Nat.not_lt_zero i)
  | cons cu rest ih =>
    intro outs h i hi ho
    unfold runParallel at h
    cases h1 : _transpile_circuit compile s cu with
    | error e => rw [h1] at h; cases h
    | ok o =>
      rw [h1] at h
      cases h2 : runParallel compile s rest with
      | error e => rw [h2] at h; cases h
      | ok os =>
        rw [h2] at h
        cases h
        cases i with
        | zero => exact h1
        | succ j => exact ih os h2 j (by simpa using hi) (by simpa using ho)

/-- Indexing a zip is indexing both lists. -/
theorem zip_get_eq {α β : Type} (l1 : List α) :
    ∀ (l2 : List β) (i : Nat) (h : i < (l1.zip l2).length)
      (h1 : i < l1.length) (h2 : i < l2.length),
      (l1.zip l2).get ⟨i, h⟩ = (l1.get ⟨i, h1⟩, l2.get ⟨i, h2⟩) := by
  induction l1 with
  | nil =>
    intro l2 i h h1 h2
    exact absurd h1 (Nat.not_lt_zero i)
  | cons a t1 ih =>
    intro l2 i h h1 h2
    cases l2 with
    | nil => exact absurd h2 (Nat.not_lt_zero i)
    | cons b t2 =>
      cases i with
      | zero => rfl
      | succ j => exact ih t2 j (by simpa using h) (by simpa using h1) (by simpa using h2)

end Qiskit

namespace Qiskit

/-- C8, counterexample: with the deprecated per-circuit broadcast a list
shorter than the circuit batch silently truncates the output: two circuits
with seed_transpiler=[42] return a one-element list (the zip of circuits
with per-circuit argument bundles stops at the shorter), so the returned
sequence does not match the input order element-for-element. -/
theorem c8_truncation_counterexample :
    transpile idCompile false none
      { TranspileArgs.defaults with seed_transpiler := .many [42] }
      (.listIn [.circuit circuit1, .circuit circuit3])
    = .ok (.listOut [.circuit circuit1], [broadcastWarning "seed_transpiler"]) := by
  rfl

/-- C8 (amended): a successful transpile of a single (non-list) circuit
returns a single program (the input itself for a schedule, else the
pass-manager image of the input); a successful transpile of a list returns
a list of at most the input length (equal in the non-deprecated calling
convention, but broadcast lists can truncate it) in which the i-th output
comes from the i-th input in order (unchanged for an all-schedule batch,
else compiled from it). -/
theorem c8_shape_and_order (compile : CompileFn) (useParallel : Bool)
    (ucfg : Option Nat) (a : TranspileArgs) :
    (∀ p out warns,
      transpile compile useParallel ucfg a (.single p) = .ok (out, warns) →
      ∃ q, out = .single q ∧
        (q = p ∨ ∃ tc, passManagerRun compile tc p = .ok q)) ∧
    (∀ ps out warns,
      transpile compile useParallel ucfg a (.listIn ps) = .ok (out, warns) →
      ∃ outs, out = .listOut outs ∧ outs.length ≤ ps.length ∧
        ∀ i (hi : i < outs.length) (hip : i < ps.length),
          ((ps.get ⟨i, hip⟩).isSchedule = true ∧ outs.get ⟨i, hi⟩ = ps.get ⟨i, hip⟩) ∨
          ∃ tc, passManagerRun compile tc (ps.get ⟨i, hip⟩) = .ok (outs.get ⟨i, hi⟩)) := by
  constructor
  · intro p out warns h
    simp only [transpile, TranspileInput.toList, TranspileInput.isList] at h
    rw [if_neg (by simp)] at h
    by_cases hsch : [p].all Program.isSchedule = true
    · rw [if_pos hsch] at h
      cases h
      exact ⟨p, rfl, Or.inl rfl⟩
    · rw [if_neg hsch] at h
      cases hp : _parse_transpile_args [p] a (a.optimization_level.getD (ucfg.getD 1)) with
      | error e => rw [hp] at h; cases h
      | ok pr =>
        rw [hp] at h
        dsimp only at h
        cases hcc : cmapConfOf pr [p].length with
        | error e => rw [hcc] at h; cases h
        | ok cmaps =>
          rw [hcc] at h
          dsimp only at h
          cases hchk : _check_circuits_coupling_map [p] cmaps a.backend with
          | error e => rw [hchk] at h; cases h
          | ok uu =>
            rw [hchk] at h
            dsimp only at h
            rw [if_neg (fun hc => absurd hc.1 (by simp))] at h
            cases hu : pr.uniqueArgs with
            | nil =>
              rw [hu] at h
              cases h
            | cons u0 ut =>
              rw [hu] at h
              have hz : [p].zip (u0 :: ut) = [(p, u0)] := rfl
              rw [hz] at h
              cases hca : _combine_args pr.sharedDict u0 with
              | error e =>
                have hrun : runSerialGo compile pr.sharedDict [(p, u0)] = .error e := by
                  unfold runSerialGo
                  dsimp only
                  rw [hca]
                rw [hrun] at h
                cases h
              | ok tcs =>
                cases hpm : passManagerRun compile tcs.1 p with
                | error e =>
                  have hrun : runSerialGo compile pr.sharedDict [(p, u0)] = .error e := by
                    unfold runSerialGo
                    dsimp only
                    rw [hca]
                    dsimp only
                    rw [hpm]
                  rw [hrun] at h
                  cases h
                | ok o =>
                  have hrun : runSerialGo compile pr.sharedDict [(p, u0)] = .ok [o] := by
                    unfold runSerialGo
                    dsimp only
                    rw [hca]
                    dsimp only
                    rw [hpm]
                    rfl
                  rw [hrun] at h
                  cases h
                  exact ⟨o, rfl, Or.inr ⟨tcs.1, hpm⟩⟩
  · intro ps out warns h
    cases ps with
    | nil =>
      simp only [transpile, TranspileInput.toList, TranspileInput.isList] at h
      cases h
      exact ⟨[], rfl, by simp, fun i hi _ => absurd hi (Nat.not_lt_zero i)⟩
    | cons p0 pt =>
      simp only [transpile, TranspileInput.toList, TranspileInput.isList] at h
      rw [if_neg (by simp)] at h
      by_cases hsch : (p0 :: pt).all Program.isSchedule = true
      · rw [if_pos hsch] at h
        cases h
        refine ⟨p0 :: pt, rfl, le_refl _, ?_⟩
        intro i hi hip
        exact Or.inl ⟨List.all_eq_true.mp hsch _ (List.get_mem _ _ _), rfl⟩
      · rw [if_neg hsch] at h
        cases hp : _parse_transpile_args (p0 :: pt) a (a.optimization_level.getD (ucfg.getD 1)) with
        | error e => rw [hp] at h; cases h
        | ok pr =>
          rw [hp] at h
          dsimp only at h
          cases hcc : cmapConfOf pr (p0 :: pt).length with
          | error e => rw [hcc] at h; cases h
          | ok cmaps =>
            rw [hcc] at h
            dsimp only at h
            cases hchk : _check_circuits_coupling_map (p0 :: pt) cmaps a.backend with
            | error e => rw [hchk] at h; cases h
            | ok uu =>
              rw [hchk] at h
              dsimp only at h
              have hres : (if (p0 :: pt).length > 1 ∧ useParallel = true then
                    runParallel compile pr.sharedDict ((p0 :: pt).zip pr.uniqueArgs)
                  else runSerialGo compile pr.sharedDict ((p0 :: pt).zip pr.uniqueArgs))
                  = runParallel compile pr.sharedDict ((p0 :: pt).zip pr.uniqueArgs) := by
                by_cases hc : (p0 :: pt).length > 1 ∧ useParallel = true
                · rw [if_pos hc]
                · rw [if_neg hc]
                  exact runPaths_eq_of_parse compile (p0 :: pt) a _ pr hp
              rw [hres] at h
              cases hr : runParallel compile pr.sharedDict ((p0 :: pt).zip pr.uniqueArgs) with
              | error e => rw [hr] at h; cases h
              | ok outs =>
                rw [hr] at h
                dsimp only at h
                cases h
                have hlen := runParallel_ok_length compile pr.sharedDict _ outs hr
                refine ⟨outs, rfl, ?_, ?_⟩
                · rw [hlen, List.length_zip]
                  exact min_le_left _ _
                · intro i hi hip
                  right
                  have hiz : i < ((p0 :: pt).zip pr.uniqueArgs).length := by
                    rw [← hlen]; exact hi
                  have h2 : i < pr.uniqueArgs.length := by
                    rw [List.length_zip] at hiz
                    exact lt_of_lt_of_le hiz (min_le_right _ _)
                  have hg := runParallel_ok_get compile pr.sharedDict _ outs hr i hiz hi
                  rw [zip_get_eq _ _ i hiz hip h2] at hg
                  unfold _transpile_circuit at hg
                  dsimp only at hg
                  cases hca : _combine_args pr.sharedDict (pr.uniqueArgs.get ⟨i, h2⟩) with
                  | error e => rw [hca] at hg; cases hg
                  | ok tcs =>
                    rw [hca] at hg
                    exact ⟨tcs.1, hg⟩

/-- C8 witness: the two-circuit default run is a list-in list-out instance
of the shape-and-order theorem with its transpile hypothesis discharged by
evaluation. -/
theorem c8_shape_and_order_witness :
    ∃ outs, TranspileOutput.listOut [Program.circuit circuit1, Program.circuit circuit3]
        = .listOut outs ∧
      outs.length ≤ [Program.circuit circuit1, Program.circuit circuit3].length ∧
      ∀ i (hi : i < outs.length)
        (hip : i < [Program.circuit circuit1, Program.circuit circuit3].length),
        ((([Program.circuit circuit1, Program.circuit circuit3]).get ⟨i, hip⟩).isSchedule = true ∧
          outs.get ⟨i, hi⟩ = ([Program.circuit circuit1, Program.circuit circuit3]).get ⟨i, hip⟩) ∨
        ∃ tc, passManagerRun idCompile tc
            (([Program.circuit circuit1, Program.circuit circuit3]).get ⟨i, hip⟩)
          = .ok (outs.get ⟨i, hi⟩) :=
  (c8_shape_and_order idCompile false none TranspileArgs.defaults).2
    [Program.circuit circuit1, Program.circuit circuit3]
    (.listOut [Program.circuit circuit1, Program.circuit circuit3]) [] rfl

end Qiskit

namespace Qiskit

/-- C6, counterexample: an empty batch skips output_name validation
entirely: transpile([], output_name=["foo"]) returns [] with no error,
although the output_name list's length (1) differs from the number of
circuits (0), contradicting the claim that every length mismatch raises a
TranspilerError. -/
theorem c6_empty_counterexample :
    transpile idCompile false none
      { TranspileArgs.defaults with output_name := .pylist [.strE "foo"] }
      (.listIn [])
    = .ok (.listOut [], []) := by
  rfl

/-- C6 (amended): for a non-empty batch, a string-list output_name of
matching length resolves to those names positionally and a run carries
them onto the outputs in order; a string-list of any other length fails
with the length TranspilerError; a bare string with a batch size other
than one fails with the list-expected TranspilerError (an empty batch
returns before any of this validation). -/
theorem c6_output_name :
    (∀ (names : List String) (cs : List Program), cs.length = names.length →
      _parse_output_name (.pylist (names.map ONameEntry.strE)) cs = .ok names) ∧
    (∀ (names : List String) (cs : List Program), cs.length ≠ names.length →
      _parse_output_name (.pylist (names.map ONameEntry.strE)) cs
        = .error (.transpilerError "The length of output_name list must be equal to the number of transpiled circuits and the output_name list should be strings.")) ∧
    (∀ (s : String) (cs : List Program), cs.length ≠ 1 →
      _parse_output_name (.strA s) cs
        = .error (.transpilerError "Expected a list object of length equal to that of the number of circuits being transpiled")) ∧
    transpile idCompile false none
        { TranspileArgs.defaults with output_name := .pylist [.strE "foo", .strE "bar"] }
        (.listIn [.circuit circuit1, .circuit circuit3])
      = .ok (.listOut [.circuit { circuit1 with name := "foo" },
                       .circuit { circuit3 with name := "bar" }], []) ∧
    transpile idCompile false none
        { TranspileArgs.defaults with output_name := .pylist [.strE "foo"] }
        (.listIn [.circuit circuit1, .circuit circuit3])
      = .error (.transpilerError "The length of output_name list must be equal to the number of transpiled circuits and the output_name list should be strings.") ∧
    transpile idCompile false none
        { TranspileArgs.defaults with output_name := .strA "foo" }
        (.listIn [.circuit circuit1, .circuit circuit3])
      = .error (.transpilerError "Expected a list object of length equal to that of the number of circuits being transpiled") := by
  have hall : ∀ ns : List String,
      (ns.map ONameEntry.strE).all
        (fun e => match e with | ONameEntry.strE _ => true | _ => false) = true := by
    intro ns
    induction ns with
    | nil => rfl
    | cons x xs ih => simp [ih]
  refine ⟨?_, ?_, ?_, ?_, ?_, ?_⟩
  · intro names cs h
    simp only [_parse_output_name]
    rw [if_pos ⟨by rw [List.length_map]; exact h, hall names⟩]
    congr 1
    rw [List.filterMap_map]
    exact List.filterMap_some _
  · intro names cs hne
    simp only [_parse_output_name]
    rw [if_neg (fun hc => hne (by simpa using hc.1))]
  · intro s cs h
    simp only [_parse_output_name]
    rw [if_neg h]
  · rfl
  · rfl
  · rfl

/-- C6 witness: the matching two-name case applied at two concrete
circuits, the length hypothesis discharged by evaluation. -/
theorem c6_output_name_witness :
    _parse_output_name (.pylist (["foo", "bar"].map ONameEntry.strE))
      [.circuit circuit1, .circuit circuit3] = .ok ["foo", "bar"] :=
  c6_output_name.1 ["foo", "bar"] [.circuit circuit1, .circuit circuit3] rfl

end Qiskit

namespace Qiskit

/-- C4: the resolver's precedence. With a supplied target, an explicitly
passed argument keeps its value for every target-derivable slot, while each
absent slot is filled from the target (and the resolved target is the
supplied one, so backend-derived values are shadowed); at the helper level
a present user/resolved value is returned without consulting the backend;
and with no basis_gates, no coupling_map and no target, the resolver falls
back to the target exposed by the backend. -/
theorem c4_precedence (a : TranspileArgs) (t : Target) :
    (a.target = some t →
      ((a.basis_gates ≠ none → (applyTargetDefaults a).basis_gates = a.basis_gates) ∧
       (a.coupling_map ≠ .noneA → (applyTargetDefaults a).coupling_map = a.coupling_map) ∧
       (a.instruction_durations ≠ .noneA →
         (applyTargetDefaults a).instruction_durations = a.instruction_durations) ∧
       (a.inst_map ≠ .noneA → (applyTargetDefaults a).inst_map = a.inst_map) ∧
       (a.dt ≠ none → (applyTargetDefaults a).dt = a.dt) ∧
       (a.timing_constraints ≠ .noneA →
         (applyTargetDefaults a).timing_constraints = a.timing_constraints) ∧
       (a.backend_properties ≠ .noneA →
         (applyTargetDefaults a).backend_properties = a.backend_properties))) ∧
    (a.target = some t →
      ((applyTargetDefaults a).target = some t ∧
       (a.basis_gates = none →
         (applyTargetDefaults a).basis_gates = some t.operation_names) ∧
       (a.coupling_map = .noneA →
         (applyTargetDefaults a).coupling_map =
           (match t.build_coupling_map with
            | some c => .cmap c
            | none => .noneA)) ∧
       (a.instruction_durations = .noneA →
         (applyTargetDefaults a).instruction_durations = .table t.durations) ∧
       (a.inst_map = .noneA →
         (applyTargetDefaults a).inst_map = .one t.instruction_schedule_map) ∧
       (a.dt = none → (applyTargetDefaults a).dt = t.dt) ∧
       (a.timing_constraints = .noneA →
         (applyTargetDefaults a).timing_constraints = .obj t.timing_constraints) ∧
       (a.backend_properties = .noneA →
         (applyTargetDefaults a).backend_properties
           = .one (target_to_backend_properties t)))) ∧
    (∀ (gs : List String) (backend : Option Backend),
      _parse_basis_gates (some gs) backend = some gs) ∧
    (∀ (m : InstScheduleMap) (backend : Option Backend),
      _parse_inst_map (.one m) backend = .ok (.one m)) ∧
    (∀ (c : CouplingMap) (backend : Option Backend),
      _parse_coupling_map (.cmap c) backend = .ok (.couplingMapV c)) ∧
    (∀ (p : BackendProperties) (backend : Option Backend),
      _parse_backend_properties (.one p) backend = .ok (.one p)) ∧
    (a.basis_gates = none → a.coupling_map = .noneA → a.target = none →
      (applyTargetDefaults a).target = a.backend.bind Backend.target) := by
  refine ⟨?_, ?_, fun gs backend => rfl, fun m backend => rfl,
    fun c backend => rfl, fun p backend => rfl, ?_⟩
  · intro ht
    refine ⟨?_, ?_, ?_, ?_, ?_, ?_, ?_⟩
    · intro h1
      cases hx : a.basis_gates with
      | none => exact absurd hx h1
      | some g => simp [applyTargetDefaults, ht, hx]
    · intro h1
      cases hx : a.coupling_map with
      | noneA => exact absurd hx h1
      | cmap c => simp [applyTargetDefaults, ht, hx]
      | pylist es => simp [applyTargetDefaults, ht, hx]
    · intro h1
      cases hx : a.instruction_durations with
      | noneA => exact absurd hx h1
      | table d => simp [applyTargetDefaults, ht, hx]
      | pylist es => simp [applyTargetDefaults, ht, hx]
    · intro h1
      cases hx : a.inst_map with
      | noneA => exact absurd hx h1
      | one m => simp [applyTargetDefaults, ht, hx]
      | many ms => simp [applyTargetDefaults, ht, hx]
    · intro h1
      cases hx : a.dt with
      | none => exact absurd hx h1
      | some q => simp [applyTargetDefaults, ht, hx]
    · intro h1
      cases hx : a.timing_constraints with
      | noneA => exact absurd hx h1
      | obj tc => simp [applyTargetDefaults, ht, hx]
      | dict d => simp [applyTargetDefaults, ht, hx]
      | pylist ds => simp [applyTargetDefaults, ht, hx]
    · intro h1
      cases hx : a.backend_properties with
      | noneA => exact absurd hx h1
      | one p => simp [applyTargetDefaults, ht, hx]
      | many ps => simp [applyTargetDefaults, ht, hx]
  · intro ht
    refine ⟨by simp [applyTargetDefaults, ht], ?_, ?_, ?_, ?_, ?_, ?_, ?_⟩
    · intro h0
      simp [applyTargetDefaults, ht, h0]
    · intro h0
      simp [applyTargetDefaults, ht, h0]
    · intro h0
      simp [applyTargetDefaults, ht, h0]
    · intro h0
      simp [applyTargetDefaults, ht, h0]
    · intro h0
      simp [applyTargetDefaults, ht, h0]
    · intro h0
      simp [applyTargetDefaults, ht, h0]
    · intro h0
      simp [applyTargetDefaults, ht, h0]
  · intro h1 h2 h3
    simp [applyTargetDefaults, h3, _parse_target, h1, h2]

/-- C4 witness: the no-argument no-target fallback conjunct applied at the
default arguments, its hypotheses discharged by evaluation. -/
theorem c4_precedence_witness :
    (applyTargetDefaults TranspileArgs.defaults).target
      = TranspileArgs.defaults.backend.bind Backend.target :=
  (c4_precedence TranspileArgs.defaults c4Target).2.2.2.2.2.2 rfl rfl rfl

end Qiskit
